import Mathlib

/-!
A shallow embedding of the EV rental agent backend (`ev_app`): the Django models
(`models.py`) as list-valued record stores with integer primary keys, the four
agent tools from `dspy_agent.py`, the confirmation view and the JSON widget
extraction from `views.py`, and the CSV inventory loader
(`management/commands/load_inventory.py`).  Python strings are Lean `String`s
(lists of Unicode scalars); CharField enumerations (`status`, `type`) are kept
as plain strings, exactly as the database stores them.
-/

/-- ASCII lowercasing, the case folding SQLite applies for `icontains` lookups. -/
def asciiLower (c : Char) : Char :=
  if 'A' ≤ c ∧ c ≤ 'Z' then Char.ofNat (c.toNat + 32) else c

/-- Contiguous-sublist test: does `needle` occur inside `hay`? -/
def subOccurs (hay needle : List Char) : Bool :=
  (List.range (hay.length + 1)).any (fun i => needle.isPrefixOf (hay.drop i))

/-- Django `model_name__icontains=q`: case-insensitive substring match. -/
def icontains (hay q : String) : Bool :=
  subOccurs (hay.data.map asciiLower) (q.data.map asciiLower)

/-- Decimal digit character for a value below 10. -/
def decChar : Nat → Char
  | 0 => '0' | 1 => '1' | 2 => '2' | 3 => '3' | 4 => '4'
  | 5 => '5' | 6 => '6' | 7 => '7' | 8 => '8' | _ => '9'

/-- Fueled digit expansion (structural on the fuel so that it reduces by `rfl`). -/
def natDecFuel : Nat → Nat → List Char
  | 0, _ => []
  | fuel + 1, n => if n < 10 then [decChar n] else natDecFuel fuel (n / 10) ++ [decChar (n % 10)]

/-- Decimal digits of `n`, as Python prints a non-negative int. -/
def natDec (n : Nat) : List Char := natDecFuel (n + 1) n

/-- Lowercase hex digit for a value below 16. -/
def hexChar : Nat → Char
  | 0 => '0' | 1 => '1' | 2 => '2' | 3 => '3' | 4 => '4' | 5 => '5' | 6 => '6'
  | 7 => '7' | 8 => '8' | 9 => '9' | 10 => 'a' | 11 => 'b' | 12 => 'c'
  | 13 => 'd' | 14 => 'e' | _ => 'f'

/-- Four lowercase hex digits of `n < 0x10000`, as CPython's `\uXXXX` escapes print. -/
def hex4 (n : Nat) : List Char :=
  [hexChar (n / 4096 % 16), hexChar (n / 256 % 16), hexChar (n / 16 % 16), hexChar (n % 16)]

/-- One character escaped as CPython `json.dumps` (default `ensure_ascii=True`) does:
two-character escapes for quote, backslash and the common control characters,
`\u00XX` for the remaining controls, printable ASCII verbatim, `\uXXXX` for
other BMP characters and a surrogate pair for astral characters. -/
def escapeChar (c : Char) : List Char :=
  if c = '"' then ['\\', '"']
  else if c = '\\' then ['\\', '\\']
  else if c = '\n' then ['\\', 'n']
  else if c = '\r' then ['\\', 'r']
  else if c = '\t' then ['\\', 't']
  else if c.toNat = 8 then ['\\', 'b']
  else if c.toNat = 12 then ['\\', 'f']
  else if c.toNat < 0x20 then '\\' :: 'u' :: hex4 c.toNat
  else if c.toNat ≤ 0x7E then [c]
  else if c.toNat ≤ 0xFFFF then '\\' :: 'u' :: hex4 c.toNat
  else '\\' :: 'u' :: hex4 (0xD800 + (c.toNat - 0x10000) / 0x400) ++
       '\\' :: 'u' :: hex4 (0xDC00 + (c.toNat - 0x10000) % 0x400)

/-- `json.dumps` escaping of a whole string body. -/
def pyEscape (s : List Char) : List Char := s.flatMap escapeChar

/-- `UserProfile` row (`models.py`): one per user; the text columns are nullable. -/
structure UserProfile where
  id : Nat
  user_id : Nat
  full_name : Option String
  nickname : Option String
  license_id : Option String
  phone : Option String
deriving DecidableEq, Repr

/-- `EVCar` row (`models.py`).  The decimal `price_per_day` is kept as its
rendered text, which is all the system ever does with it. -/
structure EVCar where
  id : Nat
  model_name : String
  range_km : Int
  price_per_day : String
  status : String
deriving DecidableEq, Repr

/-- `Transaction` row (`models.py`); `customer` and `car` are foreign keys by pk,
`appointment_date` an opaque timestamp. -/
structure Transaction where
  id : Nat
  customer : Nat
  car : Nat
  type : String
  status : String
  appointment_date : Nat
deriving DecidableEq, Repr

/-- The record store: users (by id), the three tables, fresh-pk counters and an
opaque clock standing for `timezone.now()`. -/
structure Store where
  users : List Nat
  profiles : List UserProfile
  cars : List EVCar
  txns : List Transaction
  nextProfileId : Nat
  nextCarId : Nat
  nextTxnId : Nat
  now : Nat
deriving DecidableEq, Repr

/-- `onboard_user` (`dspy_agent.py`): get-or-create the user's profile, overwrite
name, nickname and license, set the phone only when the argument is non-empty
(Python truthiness), and return a confirmation; a missing user yields the error
string with no mutation. -/
def onboard_user (store : Store) (user_id : Nat)
    (full_name nickname license_id phone : String) : String × Store :=
  if user_id ∈ store.users then
    let msg := "User " ++ full_name ++ " (Nickname: " ++ nickname ++
      ") onboarded successfully with License ID: " ++ license_id ++ "."
    match store.profiles.find? (fun p => p.user_id == user_id) with
    | some p =>
      let p' : UserProfile :=
        { p with full_name := some full_name, nickname := some nickname,
                 license_id := some license_id,
                 phone := if phone ≠ "" then some phone else p.phone }
      (msg, { store with profiles := store.profiles.map (fun q => if q.id == p.id then p' else q) })
    | none =>
      let p' : UserProfile :=
        { id := store.nextProfileId, user_id := user_id,
          full_name := some full_name, nickname := some nickname,
          license_id := some license_id,
          phone := if phone ≠ "" then some phone else none }
      (msg, { store with profiles := store.profiles ++ [p'],
                         nextProfileId := store.nextProfileId + 1 })
  else ("Error: User not found.", store)

/-- One line of `search_cars` output. -/
def carLine (c : EVCar) : String :=
  "ID: " ++ toString c.id ++ " | Model: " ++ c.model_name ++ " | Range: " ++
    toString c.range_km ++ "km | Price: $" ++ c.price_per_day

/-- `search_cars` (`dspy_agent.py`): list AVAILABLE cars, narrowed by an
`icontains` filter when the query is non-empty (Python truthiness). -/
def search_cars (store : Store) (query_str : String) : String :=
  let cars := store.cars.filter (fun c => c.status == "AVAILABLE")
  let cars := if query_str ≠ "" then cars.filter (fun c => icontains c.model_name query_str) else cars
  if cars.isEmpty then "No available cars found matching your criteria."
  else String.intercalate "\n" (cars.map carLine)

/-- `cancel_transaction` (`dspy_agent.py`): look the transaction up by id alone
and set its status to CANCELLED; only a missing id yields the error string.
(Row update is by primary key, as `txn.save()` does.) -/
def cancel_transaction (store : Store) (transaction_id : Nat) : String × Store :=
  match store.txns.find? (fun t => t.id == transaction_id) with
  | some _ =>
    ("Transaction " ++ toString transaction_id ++ " has been cancelled.",
     { store with txns := store.txns.map (fun t =>
         if t.id == transaction_id then { t with status := "CANCELLED" } else t) })
  | none => ("Error: Transaction not found.", store)

/-- The `customer__user=request.user` join of `confirm_transaction`. -/
def ownerMatches (store : Store) (t : Transaction) (uid : Nat) : Bool :=
  match store.profiles.find? (fun p => p.id == t.customer) with
  | some p => p.user_id == uid
  | none => false

/-- `txn.car.model_name`; foreign-key integrity makes the fallback unreachable. -/
def carNameOf (store : Store) (t : Transaction) : String :=
  match store.cars.find? (fun c => c.id == t.car) with
  | some c => c.model_name
  | none => ""

/-- `confirm_transaction` (`views.py`): `get_object_or_404` filtered by id and
owning user (no status filter), then set CONFIRMED; `none` models the 404,
which leaves the store untouched. -/
def confirm_transaction (store : Store) (uid tid : Nat) : Option (Store × String) :=
  match store.txns.find? (fun t => t.id == tid && ownerMatches store t uid) with
  | some t =>
    some ({ store with txns := store.txns.map (fun t' =>
              if t'.id == tid then { t' with status := "CONFIRMED" } else t') },
          "✅ Great! Transaction #" ++ toString tid ++ " for " ++ carNameOf store t ++
            " is CONFIRMED.")
  | none => none

/-- The draft confirmation sentence built by `create_transaction_draft`. -/
def draftMessage (model_name : String) : String :=
  "I have created a draft request for the " ++ model_name ++ "."

/-- Skeleton of the dumped draft JSON before the escaped message. -/
def djA : List Char := "\x7b\"message\": \"".data

/-- Skeleton between the message's closing quote and the transaction id. -/
def djB : List Char := ", \"transaction_id\": ".data

/-- Skeleton from after the transaction id to the closing brace. -/
def djC : List Char := ", \"meta\": \"draft_created\"\x7d".data

/-- The exact `json.dumps` output of the draft payload dict (insertion-ordered
keys, default separators, `ensure_ascii=True`). -/
def draftJson (model_name : String) (tid : Nat) : List Char :=
  djA ++ pyEscape (draftMessage model_name).data ++ ('"' :: djB) ++ natDec tid ++ djC

/-- `UserProfile.objects.get_or_create(user=user)`, returning the profile pk. -/
def getOrCreateProfile (store : Store) (uid : Nat) : Nat × Store :=
  match store.profiles.find? (fun p => p.user_id == uid) with
  | some p => (p.id, store)
  | none =>
    (store.nextProfileId,
     { store with
         profiles := store.profiles ++
           [{ id := store.nextProfileId, user_id := uid, full_name := none,
              nickname := none, license_id := none, phone := none }],
         nextProfileId := store.nextProfileId + 1 })

/-- `EVCar.objects.filter(model_name__icontains=q, status='AVAILABLE').first()`.
Django orders an unordered queryset by primary key for `.first()`, and the
store keeps cars in ascending-pk (creation) order, so this is the first match. -/
def findAvailableCar (store : Store) (q : String) : Option EVCar :=
  store.cars.find? (fun c => icontains c.model_name q && c.status == "AVAILABLE")

/-- `create_transaction_draft` (`dspy_agent.py`): get-or-create the profile,
pick the first AVAILABLE car matching the model substring, create a DRAFT
transaction stamped with the current time (the date argument is unused), and
return the dumped JSON; a missing user or car yields that error string.  The
profile created before a failed car lookup persists, as in the source. -/
def create_transaction_draft (store : Store) (user_id : Nat)
    (car_model_name date_str type : String) : String × Store :=
  if user_id ∈ store.users then
    let pr := getOrCreateProfile store user_id
    match findAvailableCar pr.2 car_model_name with
    | none => ("Error: Could not find an available car matching '" ++ car_model_name ++ "'.", pr.2)
    | some car =>
      (String.mk (draftJson car.model_name pr.2.nextTxnId),
       { pr.2 with
           txns := pr.2.txns ++
             [{ id := pr.2.nextTxnId, customer := pr.1, car := car.id, type := type,
                status := "DRAFT", appointment_date := pr.2.now }],
           nextTxnId := pr.2.nextTxnId + 1 })
  else ("Error creating draft: User matching query does not exist.", store)

/-- A CSV row of the inventory file, already field-typed (the loader's
`int`/`float` conversions raise on malformed rows, which the claims leave out
of scope). -/
structure CsvRow where
  model_name : String
  range_km : Int
  price_per_day : String
  status : String
deriving DecidableEq, Repr

/-- `EVCar.objects.update_or_create(model_name=..., defaults=...)` for one row. -/
def upsertRow (store : Store) (r : CsvRow) : Store :=
  match store.cars.find? (fun c => c.model_name == r.model_name) with
  | some _ =>
    { store with cars := store.cars.map (fun c =>
        if c.model_name == r.model_name then
          { c with range_km := r.range_km, price_per_day := r.price_per_day, status := r.status }
        else c) }
  | none =>
    { store with
        cars := store.cars ++
          [{ id := store.nextCarId, model_name := r.model_name, range_km := r.range_km,
             price_per_day := r.price_per_day, status := r.status }],
        nextCarId := store.nextCarId + 1 }

/-- Does the row create a new car (its `created` flag)? -/
def rowCreates (store : Store) (r : CsvRow) : Bool :=
  store.cars.all (fun c => c.model_name != r.model_name)

/-- How many rows create new cars as the fold proceeds (the loader's `count`). -/
def loadCreatedCount (store : Store) (rows : List CsvRow) : Nat :=
  (rows.foldl (fun acc r => (upsertRow acc.1 r, acc.2 + if rowCreates acc.1 r then 1 else 0))
    ((store, 0) : Store × Nat)).2

/-- `Command.handle` of `load_inventory.py`: a missing file is a warning and a
no-op; otherwise every row is upserted and a fixed success line is written
(the computed `count` never reaches the output). -/
def load_inventory (store : Store) (file : Option (List CsvRow)) : Store × List String :=
  match file with
  | none => (store, ["Data file not found at /app/data/cars.csv"])
  | some rows => (rows.foldl upsertRow store, ["Successfully loaded/updated inventory."])

/-- Replacement character standing in for a lone surrogate, which a Lean `Char`
cannot hold (CPython would keep it; no dumped payload ever produces one). -/
def replChar : Char := Char.ofNat 0xFFFD

/-- Value of one hex digit character. -/
def hexVal (c : Char) : Option Nat :=
  if '0' ≤ c ∧ c ≤ '9' then some (c.toNat - 48)
  else if 'a' ≤ c ∧ c ≤ 'f' then some (c.toNat - 87)
  else if 'A' ≤ c ∧ c ≤ 'F' then some (c.toNat - 55)
  else none

/-- Parse a JSON string body after the opening quote, as CPython's strict
`scanstring` does: the named escapes, `\uXXXX` with surrogate-pair
recombination, raw control characters rejected.  Returns the decoded
characters and the input after the closing quote.  Structural on a fuel
counter (every recursive call emits one decoded character, so any fuel above
the decoded length suffices). -/
def parseStrF : Nat → List Char → Option (List Char × List Char)
  | 0, _ => none
  | _ + 1, [] => none
  | fuel + 1, c :: rest =>
    if c = '"' then some ([], rest)
    else if c = '\\' then
      match rest with
      | [] => none
      | e :: r =>
        if e = '"' then (parseStrF fuel r).map (fun p => ('"' :: p.1, p.2))
        else if e = '\\' then (parseStrF fuel r).map (fun p => ('\\' :: p.1, p.2))
        else if e = '/' then (parseStrF fuel r).map (fun p => ('/' :: p.1, p.2))
        else if e = 'b' then (parseStrF fuel r).map (fun p => (Char.ofNat 8 :: p.1, p.2))
        else if e = 'f' then (parseStrF fuel r).map (fun p => (Char.ofNat 12 :: p.1, p.2))
        else if e = 'n' then (parseStrF fuel r).map (fun p => ('\n' :: p.1, p.2))
        else if e = 'r' then (parseStrF fuel r).map (fun p => ('\r' :: p.1, p.2))
        else if e = 't' then (parseStrF fuel r).map (fun p => ('\t' :: p.1, p.2))
        else if e = 'u' then
          match r with
          | h1 :: h2 :: h3 :: h4 :: r2 =>
            match hexVal h1, hexVal h2, hexVal h3, hexVal h4 with
            | some a, some b, some c2, some d =>
              let n := ((a * 16 + b) * 16 + c2) * 16 + d
              if 0xD800 ≤ n ∧ n ≤ 0xDBFF then
                match r2 with
                | '\\' :: 'u' :: g1 :: g2 :: g3 :: g4 :: r3 =>
                  match hexVal g1, hexVal g2, hexVal g3, hexVal g4 with
                  | some a2, some b2, some c3, some d2 =>
                    let m := ((a2 * 16 + b2) * 16 + c3) * 16 + d2
                    if 0xDC00 ≤ m ∧ m ≤ 0xDFFF then
                      (parseStrF fuel r3).map (fun p =>
                        (Char.ofNat (0x10000 + (n - 0xD800) * 0x400 + (m - 0xDC00)) :: p.1, p.2))
                    else (parseStrF fuel r2).map (fun p => (replChar :: p.1, p.2))
                  | _, _, _, _ => (parseStrF fuel r2).map (fun p => (replChar :: p.1, p.2))
                | _ => (parseStrF fuel r2).map (fun p => (replChar :: p.1, p.2))
              else if 0xDC00 ≤ n ∧ n ≤ 0xDFFF then
                (parseStrF fuel r2).map (fun p => (replChar :: p.1, p.2))
              else (parseStrF fuel r2).map (fun p => (Char.ofNat n :: p.1, p.2))
            | _, _, _, _ => none
          | _ => none
        else none
    else if c.toNat < 0x20 then none
    else (parseStrF fuel rest).map (fun p => (c :: p.1, p.2))

/-- The string-body parser at adequate fuel. -/
def parseStr (cs : List Char) : Option (List Char × List Char) :=
  parseStrF (cs.length + 1) cs

/-- Decimal digit test. -/
def isDig (c : Char) : Bool := '0' ≤ c && c ≤ '9'

/-- Consume a run of digits, accumulating their value left to right. -/
def parseDigitsAcc (acc : Nat) : List Char → Nat × List Char
  | [] => (acc, [])
  | c :: rest =>
    if isDig c then parseDigitsAcc (acc * 10 + (c.toNat - 48)) rest else (acc, c :: rest)

/-- Split a leading run of digit characters off the input. -/
def spanDigits : List Char → List Char × List Char
  | [] => ([], [])
  | c :: rest =>
    if isDig c then
      let p := spanDigits rest
      (c :: p.1, p.2)
    else ([], c :: rest)

/-- A decoded JSON value.  A number with a fraction or exponent is kept as the
pieces of its literal (`Json.fnum`): no float arithmetic is modeled, and none
is needed by any claim. -/
inductive Json where
  | null
  | bool (b : Bool)
  | num (n : Int)
  | fnum (neg : Bool) (ip : Nat) (frac : List Char) (expc : List Char)
  | str (s : List Char)
  | arr (elems : List Json)
  | obj (members : List (List Char × Json))

instance : Inhabited Json := ⟨Json.null⟩

/-- Python `dict.get` on a decoded object (duplicate keys: last wins, as in
`json.loads`); `none` on a missing key or a non-object. -/
def jGet (v : Json) (key : List Char) : Option Json :=
  match v with
  | Json.obj kvs => ((kvs.filter (fun kv => kv.1 == key)).getLast?).map (fun kv => kv.2)
  | _ => none

/-- Python truthiness of a decoded JSON value.  A float literal is falsy exactly
when every digit of its mantissa is zero. -/
def jTruthy : Json → Bool
  | Json.null => false
  | Json.bool b => b
  | Json.num n => n != 0
  | Json.fnum _ ip frac _ => !(ip == 0 && frac.all (fun c => c == '0'))
  | Json.str s => !s.isEmpty
  | Json.arr l => !l.isEmpty
  | Json.obj l => !l.isEmpty

/-- Scan an optional fraction part: a dot followed by at least one digit. -/
def scanFrac : List Char → Option (List Char) × List Char
  | '.' :: r =>
    match spanDigits r with
    | ([], _) => (none, '.' :: r)
    | (ds, r2) => (some ds, r2)
  | cs => (none, cs)

/-- Scan an optional exponent part: `e`/`E`, optional sign, at least one digit. -/
def scanExp : List Char → Option (List Char) × List Char
  | [] => (none, [])
  | e :: r =>
    if e = 'e' ∨ e = 'E' then
      match r with
      | s :: r1 =>
        if s = '+' ∨ s = '-' then
          match spanDigits r1 with
          | ([], _) => (none, e :: r)
          | (ds, r2) => (some (s :: ds), r2)
        else
          match spanDigits r with
          | ([], _) => (none, e :: r)
          | (ds, r2) => (some ds, r2)
      | [] => (none, [e])
    else (none, e :: r)

/-- Finish a number whose sign and integer part are read: integral literals
become `Json.num`, literals with fraction or exponent become `Json.fnum`. -/
def mkNum (neg : Bool) (ip : Nat) (cs : List Char) : Option (Json × List Char) :=
  let fr := scanFrac cs
  let ex := scanExp fr.2
  match fr.1, ex.1 with
  | none, none => some (Json.num (if neg then -(ip : Int) else (ip : Int)), ex.2)
  | f, e => some (Json.fnum neg ip (f.getD []) (e.getD []), ex.2)

/-- Parse an unsigned number body: `0` alone, or a nonzero leading digit and
its following digits, then the optional fraction and exponent. -/
def parseNumCore (neg : Bool) (cs : List Char) : Option (Json × List Char) :=
  match cs with
  | c :: rest =>
    if c = '0' then mkNum neg 0 rest
    else if isDig c then
      let p := parseDigitsAcc (c.toNat - 48) rest
      mkNum neg p.1 p.2
    else none
  | [] => none

/-- Parse a JSON number per the grammar `-?(0|[1-9]\d*)(\.\d+)?([eE][+-]?\d+)?`. -/
def parseNum (cs : List Char) : Option (Json × List Char) :=
  match cs with
  | '-' :: rest => parseNumCore true rest
  | _ => parseNumCore false cs

/-- JSON insignificant whitespace. -/
def isJsonWs (c : Char) : Bool := c == ' ' || c == '\t' || c == '\n' || c == '\r'

/-- Drop leading JSON whitespace. -/
def skipWs (cs : List Char) : List Char := cs.dropWhile isJsonWs

/-- Parser sub-goal selector: a value, the members of an object after `{`, or
the items of an array after `[`. -/
inductive PMode where
  | value | members | items
deriving DecidableEq, Repr

/-- Result of one parser sub-goal. -/
inductive PRes where
  | val (j : Json)
  | mems (l : List (List Char × Json))
  | elts (l : List Json)

/-- The recursive-descent JSON parser, structural on a fuel counter so that it
reduces definitionally; each nesting step consumes at least one input
character, so `length + 1` fuel never runs dry. -/
def parseP : Nat → PMode → List Char → Option (PRes × List Char)
  | 0, _, _ => none
  | fuel + 1, PMode.value, cs =>
    match cs with
    | '{' :: rest =>
      match skipWs rest with
      | '}' :: r2 => some (PRes.val (Json.obj []), r2)
      | r1 =>
        match parseP fuel PMode.members r1 with
        | some (PRes.mems kvs, r2) => some (PRes.val (Json.obj kvs), r2)
        | _ => none
    | '[' :: rest =>
      match skipWs rest with
      | ']' :: r2 => some (PRes.val (Json.arr []), r2)
      | r1 =>
        match parseP fuel PMode.items r1 with
        | some (PRes.elts vs, r2) => some (PRes.val (Json.arr vs), r2)
        | _ => none
    | '"' :: rest => (parseStr rest).map (fun p => (PRes.val (Json.str p.1), p.2))
    | 'n' :: 'u' :: 'l' :: 'l' :: rest => some (PRes.val Json.null, rest)
    | 't' :: 'r' :: 'u' :: 'e' :: rest => some (PRes.val (Json.bool true), rest)
    | 'f' :: 'a' :: 'l' :: 's' :: 'e' :: rest => some (PRes.val (Json.bool false), rest)
    | cs => (parseNum cs).map (fun p => (PRes.val p.1, p.2))
  | fuel + 1, PMode.members, cs =>
    match cs with
    | '"' :: rest =>
      match parseStr rest with
      | some (key, r1) =>
        match skipWs r1 with
        | ':' :: r2 =>
          match parseP fuel PMode.value (skipWs r2) with
          | some (PRes.val v, r3) =>
            match skipWs r3 with
            | ',' :: r4 =>
              match parseP fuel PMode.members (skipWs r4) with
              | some (PRes.mems kvs, r5) => some (PRes.mems ((key, v) :: kvs), r5)
              | _ => none
            | '}' :: r4 => some (PRes.mems [(key, v)], r4)
            | _ => none
          | _ => none
        | _ => none
      | none => none
    | _ => none
  | fuel + 1, PMode.items, cs =>
    match parseP fuel PMode.value cs with
    | some (PRes.val v, r1) =>
      match skipWs r1 with
      | ',' :: r2 =>
        match parseP fuel PMode.items (skipWs r2) with
        | some (PRes.elts vs, r3) => some (PRes.elts (v :: vs), r3)
        | _ => none
      | ']' :: r2 => some (PRes.elts [v], r2)
      | _ => none
    | _ => none

/-- `json.loads`: one value with surrounding whitespace and nothing else. -/
def jsonParse (cs : List Char) : Option Json :=
  match parseP (cs.length + 1) PMode.value (skipWs cs) with
  | some (PRes.val v, rest) => if skipWs rest = [] then some v else none
  | _ => none

/-- Case-insensitive literal prefix match (pattern given in lowercase). -/
def ciPrefix : List Char → List Char → Bool
  | [], _ => true
  | _ :: _, [] => false
  | p :: ps, c :: cs => (asciiLower c == p) && ciPrefix ps cs

/-- Python regex `\s` restricted to ASCII (no claim meets an exotic Unicode
space in the marker). -/
def isPySpace (c : Char) : Bool :=
  c == ' ' || c == '\t' || c == '\n' || c == '\r' || c == Char.ofNat 11 || c == Char.ofNat 12

/-- The literal before the optional spaces of the widget marker. -/
def metaLit : List Char := "\"meta\":".data

/-- The literal after the optional spaces of the widget marker. -/
def draftLit : List Char := "\"draft_created\"".data

/-- If the text starts with the marker `"meta":\s*"draft_created"`
(case-insensitively), the marker's length, else `none`. -/
def markerLen (cs : List Char) : Option Nat :=
  if ciPrefix metaLit cs then
    let rest := cs.drop 7
    let s := (rest.takeWhile isPySpace).length
    if ciPrefix draftLit (rest.drop s) then some (7 + s + 15) else none
  else none

/-- End positions (exclusive) of marker occurrences starting at or after `lo`. -/
def markerEnds (text : List Char) (lo : Nat) : List Nat :=
  (List.range (text.length + 1)).filterMap (fun j =>
    if lo ≤ j then (markerLen (text.drop j)).map (fun l => j + l) else none)

/-- Character at position `i`; the default (a space) is never `{` or `}`. -/
def charAt (text : List Char) (i : Nat) : Char := text.getD i ' '

/-- The end of the regex match starting at `i`: with both `.*` of the DOTALL
pattern `\{.*"meta":\s*"draft_created".*\}` greedy, the match closes at the
last `}` lying at or after some marker occurrence that starts after `i`. -/
def matchEnd (text : List Char) (i : Nat) : Option Nat :=
  ((List.range text.length).filter (fun k =>
    charAt text k == '}' && (markerEnds text (i + 1)).any (fun e => e ≤ k))).getLast?

/-- The start of the leftmost match: the first `{` from which the pattern can
complete. -/
def matchStart (text : List Char) : Option Nat :=
  ((List.range text.length).filter (fun i =>
    charAt text i == '{' && (matchEnd text i).isSome)).head?

/-- `re.search` of the widget pattern with `DOTALL | IGNORECASE`, returning the
matched group. -/
def reFindWidget (text : List Char) : Option (List Char) :=
  match matchStart text with
  | none => none
  | some i =>
    match matchEnd text i with
    | some k => some ((text.drop i).take (k - i + 1))
    | none => none

/-- `extract_json_widget` (`views.py`): regex scan then `json.loads`, with
every failure collapsed to `None` by the bare `except`. -/
def extract_json_widget (text : String) : Option Json :=
  match reFindWidget text.data with
  | none => none
  | some s => jsonParse s

/-- The widget-consuming step of `chat_view` (`views.py` lines 47 to 54): the
displayed value (the widget's `message` when present, else the original text)
and the surfaced `transaction_id` value when truthy. -/
def interpretResponse (text : String) : Json × Option Json :=
  match extract_json_widget text with
  | none => (Json.str text.data, none)
  | some v =>
    ((jGet v "message".data).getD (Json.str text.data),
     match jGet v "transaction_id".data with
     | some j => if jTruthy j then some j else none
     | none => none)

/-! ### Helper lemmas about the store operations -/

theorem getOrCreateProfile_cars (store : Store) (uid : Nat) :
    (getOrCreateProfile store uid).2.cars = store.cars := by
  unfold getOrCreateProfile
  cases store.profiles.find? (fun p => p.user_id == uid) <;> rfl

theorem getOrCreateProfile_txns (store : Store) (uid : Nat) :
    (getOrCreateProfile store uid).2.txns = store.txns := by
  unfold getOrCreateProfile
  cases store.profiles.find? (fun p => p.user_id == uid) <;> rfl

theorem getOrCreateProfile_nextTxnId (store : Store) (uid : Nat) :
    (getOrCreateProfile store uid).2.nextTxnId = store.nextTxnId := by
  unfold getOrCreateProfile
  cases store.profiles.find? (fun p => p.user_id == uid) <;> rfl

theorem getOrCreateProfile_users (store : Store) (uid : Nat) :
    (getOrCreateProfile store uid).2.users = store.users := by
  unfold getOrCreateProfile
  cases store.profiles.find? (fun p => p.user_id == uid) <;> rfl

/-- A satisfied predicate keeps `find?` from returning `none`. -/
theorem find?_ne_none_of_mem {α : Type} {p : α → Bool} {l : List α} {a : α}
    (ha : a ∈ l) (hp : p a = true) : l.find? p ≠ none := by
  intro hn
  exact absurd hp (by simpa using List.find?_eq_none.mp hn a ha)

/-- `cancel_transaction` on an existing id: the success message, and the status
of every row with that id set to CANCELLED. -/
theorem cancel_transaction_found (store : Store) (tid : Nat)
    (h : ∃ t ∈ store.txns, t.id = tid) :
    cancel_transaction store tid =
      ("Transaction " ++ toString tid ++ " has been cancelled.",
       { store with txns := store.txns.map (fun t =>
           if t.id = tid then { t with status := "CANCELLED" } else t) }) := by
  obtain ⟨t0, ht0, hid⟩ := h
  have hne : store.txns.find? (fun t => t.id == tid) ≠ none :=
    find?_ne_none_of_mem ht0 (by simp [hid])
  cases hfind : store.txns.find? (fun t => t.id == tid) with
  | none => exact absurd hfind hne
  | some u =>
    unfold cancel_transaction
    rw [hfind]
    have hfun : (fun t : Transaction => if t.id == tid then { t with status := "CANCELLED" } else t)
        = (fun t : Transaction => if t.id = tid then { t with status := "CANCELLED" } else t) := by
      funext t
      by_cases ht : t.id = tid <;> simp [ht]
    rw [hfun]

/-- `cancel_transaction` on a missing id: the error string, store untouched. -/
theorem cancel_transaction_missing (store : Store) (tid : Nat)
    (h : ∀ t ∈ store.txns, t.id ≠ tid) :
    cancel_transaction store tid = ("Error: Transaction not found.", store) := by
  have hfind : store.txns.find? (fun t => t.id == tid) = none :=
    List.find?_eq_none.mpr (fun t ht => by simp [h t ht])
  unfold cancel_transaction
  rw [hfind]

/-- `confirm_transaction` on an existing owned id: some result whose store sets
every row with that id to CONFIRMED. -/
theorem confirm_transaction_found (store : Store) (uid tid : Nat)
    (h : ∃ t ∈ store.txns, t.id = tid ∧ ownerMatches store t uid = true) :
    ∃ m, confirm_transaction store uid tid =
      some ({ store with txns := store.txns.map (fun t =>
                if t.id = tid then { t with status := "CONFIRMED" } else t) }, m) := by
  obtain ⟨t0, ht0, hid, hown⟩ := h
  have hne : store.txns.find? (fun t => t.id == tid && ownerMatches store t uid) ≠ none :=
    find?_ne_none_of_mem ht0 (by simp [hid, hown])
  cases hfind : store.txns.find? (fun t => t.id == tid && ownerMatches store t uid) with
  | none => exact absurd hfind hne
  | some u =>
    refine ⟨"✅ Great! Transaction #" ++ toString tid ++ " for " ++ carNameOf store u ++
      " is CONFIRMED.", ?_⟩
    unfold confirm_transaction
    rw [hfind]
    have hfun : (fun t : Transaction => if t.id == tid then { t with status := "CONFIRMED" } else t)
        = (fun t : Transaction => if t.id = tid then { t with status := "CONFIRMED" } else t) := by
      funext t
      by_cases ht : t.id = tid <;> simp [ht]
    rw [hfun]

/-- `confirm_transaction` with no owned row of that id is the 404. -/
theorem confirm_transaction_missing (store : Store) (uid tid : Nat)
    (h : ∀ t ∈ store.txns, ¬(t.id = tid ∧ ownerMatches store t uid = true)) :
    confirm_transaction store uid tid = none := by
  have hfind : store.txns.find? (fun t => t.id == tid && ownerMatches store t uid) = none := by
    refine List.find?_eq_none.mpr (fun t ht => ?_)
    have := h t ht
    simp only [Bool.and_eq_true, beq_iff_eq]
    tauto
  unfold confirm_transaction
  rw [hfind]

/-- The draft tool only ever appends a transaction: every existing row survives
unchanged. -/
theorem create_transaction_draft_preserves (store : Store) (uid : Nat)
    (q date ty : String) :
    ∀ t ∈ store.txns, t ∈ (create_transaction_draft store uid q date ty).2.txns := by
  intro t ht
  unfold create_transaction_draft
  by_cases hu : uid ∈ store.users
  · rw [if_pos hu]
    cases hfind : findAvailableCar (getOrCreateProfile store uid).2 q with
    | none =>
      simp only [hfind]
      simpa [getOrCreateProfile_txns] using ht
    | some car =>
      simp only [hfind, getOrCreateProfile_txns]
      exact List.mem_append_left _ ht
  · rw [if_neg hu]
    exact ht

/-! ### Sample stores for witnesses and counterexamples -/

/-- A store with one user (id 7), their profile, one car and one CONFIRMED
transaction. -/
def sampleConfirmed : Store :=
  { users := [7],
    profiles := [{ id := 1, user_id := 7, full_name := none, nickname := none,
                   license_id := none, phone := none }],
    cars := [{ id := 1, model_name := "Model 3", range_km := 350,
               price_per_day := "49.00", status := "AVAILABLE" }],
    txns := [{ id := 1, customer := 1, car := 1, type := "TEST_DRIVE",
               status := "CONFIRMED", appointment_date := 5 }],
    nextProfileId := 2, nextCarId := 2, nextTxnId := 2, now := 5 }

/-- The same store but with the transaction CANCELLED. -/
def sampleCancelled : Store :=
  { sampleConfirmed with
      txns := [{ id := 1, customer := 1, car := 1, type := "TEST_DRIVE",
                 status := "CANCELLED", appointment_date := 5 }] }

/-- C8: `cancel_transaction` performs no ownership or status check: every
existing transaction id is set to CANCELLED with the confirmation string,
whatever its owner and current status; only a nonexistent id yields the error
string (and then nothing changes). -/
theorem C8_cancel_unconditional (store : Store) (tid : Nat) :
    ((∃ t ∈ store.txns, t.id = tid) →
      (cancel_transaction store tid).1 = "Transaction " ++ toString tid ++ " has been cancelled." ∧
      ∀ t ∈ store.txns,
        (if t.id = tid then { t with status := "CANCELLED" } else t) ∈
          (cancel_transaction store tid).2.txns) ∧
    ((∀ t ∈ store.txns, t.id ≠ tid) →
      cancel_transaction store tid = ("Error: Transaction not found.", store)) := by
  refine ⟨fun h => ?_, cancel_transaction_missing store tid⟩
  rw [cancel_transaction_found store tid h]
  exact ⟨rfl, fun t ht => List.mem_map_of_mem _ ht⟩

/-- C8 witness: cancelling the CONFIRMED transaction of another user's profile
(caller ignored) succeeds with the confirmation string. -/
theorem C8_cancel_unconditional_witness :
    (∃ t ∈ sampleConfirmed.txns, t.id = 1) ∧
    (cancel_transaction sampleConfirmed 1).1 = "Transaction " ++ toString 1 ++ " has been cancelled." := by
  have hex : ∃ t ∈ sampleConfirmed.txns, t.id = 1 :=
    ⟨{ id := 1, customer := 1, car := 1, type := "TEST_DRIVE",
       status := "CONFIRMED", appointment_date := 5 }, by simp [sampleConfirmed], rfl⟩
  exact ⟨hex, ((C8_cancel_unconditional sampleConfirmed 1).1 hex).1⟩

/-- C1 counterexample: the confirmation entry point succeeds on a transaction
whose status is CANCELLED (not DRAFT), flipping it to CONFIRMED, so success is
not restricted to DRAFT transactions. -/
theorem C1_confirm_counterexample :
    sampleCancelled.txns.map Transaction.status = ["CANCELLED"] ∧
    (confirm_transaction sampleCancelled 7 1).map (fun r => r.1.txns.map Transaction.status) =
      some ["CONFIRMED"] := by
  exact ⟨rfl, rfl⟩

/-- C1 (amended): the confirmation entry point succeeds exactly when the
transaction exists and is owned by the confirming identity, regardless of its
current status; for a nonexistent id or a foreign-owned transaction it fails
with the not-found fault and the store (hence every status) is unchanged. -/
theorem C1_confirm_owner_gate (store : Store) (uid tid : Nat) :
    ((∃ t ∈ store.txns, t.id = tid ∧ ownerMatches store t uid = true) →
      ∃ s' m, confirm_transaction store uid tid = some (s', m) ∧
        ∀ t ∈ store.txns,
          (if t.id = tid then { t with status := "CONFIRMED" } else t) ∈ s'.txns) ∧
    ((∀ t ∈ store.txns, ¬(t.id = tid ∧ ownerMatches store t uid = true)) →
      confirm_transaction store uid tid = none) := by
  refine ⟨fun h => ?_, confirm_transaction_missing store uid tid⟩
  obtain ⟨m, hm⟩ := confirm_transaction_found store uid tid h
  exact ⟨_, m, hm, fun t ht => List.mem_map_of_mem _ ht⟩

/-- C1 witness: confirming an owned transaction succeeds, and a foreign caller
gets the 404. -/
theorem C1_confirm_owner_gate_witness :
    (∃ t ∈ sampleCancelled.txns, t.id = 1 ∧ ownerMatches sampleCancelled t 7 = true) ∧
    (∃ s' m, confirm_transaction sampleCancelled 7 1 = some (s', m) ∧
      ∀ t ∈ sampleCancelled.txns,
        (if t.id = 1 then { t with status := "CONFIRMED" } else t) ∈ s'.txns) := by
  have hex : ∃ t ∈ sampleCancelled.txns, t.id = 1 ∧ ownerMatches sampleCancelled t 7 = true :=
    ⟨{ id := 1, customer := 1, car := 1, type := "TEST_DRIVE",
       status := "CANCELLED", appointment_date := 5 },
     by simp [sampleCancelled, sampleConfirmed], rfl, by decide⟩
  exact ⟨hex, (C1_confirm_owner_gate sampleCancelled 7 1).1 hex⟩

/-- C2 counterexample: CONFIRMED is not terminal: the cancellation tool moves a
CONFIRMED transaction to CANCELLED. -/
theorem C2_terminal_counterexample :
    sampleConfirmed.txns.map Transaction.status = ["CONFIRMED"] ∧
    (cancel_transaction sampleConfirmed 1).2.txns.map Transaction.status = ["CANCELLED"] := by
  exact ⟨rfl, rfl⟩

/-- C2 (amended): CONFIRMED and CANCELLED are not terminal.  The cancellation
tool sets any existing transaction to CANCELLED whatever its status, the
confirmation entry point sets any existing owned transaction to CONFIRMED
whatever its status; only the draft tool never changes an existing
transaction. -/
theorem C2_no_terminal_states (store : Store) (uid tid : Nat) (q date ty : String) :
    ((∃ t ∈ store.txns, t.id = tid) →
      ∀ t ∈ store.txns,
        (if t.id = tid then { t with status := "CANCELLED" } else t) ∈
          (cancel_transaction store tid).2.txns) ∧
    ((∃ t ∈ store.txns, t.id = tid ∧ ownerMatches store t uid = true) →
      ∃ s' m, confirm_transaction store uid tid = some (s', m) ∧
        ∀ t ∈ store.txns,
          (if t.id = tid then { t with status := "CONFIRMED" } else t) ∈ s'.txns) ∧
    (∀ t ∈ store.txns, t ∈ (create_transaction_draft store uid q date ty).2.txns) := by
  refine ⟨fun h => ?_, fun h => ?_, create_transaction_draft_preserves store uid q date ty⟩
  · rw [cancel_transaction_found store tid h]
    exact fun t ht => List.mem_map_of_mem _ ht
  · obtain ⟨m, hm⟩ := confirm_transaction_found store uid tid h
    exact ⟨_, m, hm, fun t ht => List.mem_map_of_mem _ ht⟩

/-- C2 witness: on a CONFIRMED transaction the cancellation tool yields a
CANCELLED row in the resulting store. -/
theorem C2_no_terminal_states_witness :
    (∃ t ∈ sampleConfirmed.txns, t.id = 1) ∧
    ({ id := 1, customer := 1, car := 1, type := "TEST_DRIVE",
       status := "CANCELLED", appointment_date := 5 } : Transaction) ∈
      (cancel_transaction sampleConfirmed 1).2.txns := by
  have hex : ∃ t ∈ sampleConfirmed.txns, t.id = 1 :=
    ⟨{ id := 1, customer := 1, car := 1, type := "TEST_DRIVE",
       status := "CONFIRMED", appointment_date := 5 }, by simp [sampleConfirmed], rfl⟩
  have h := (C2_no_terminal_states sampleConfirmed 7 1 "q" "d" "TEST_DRIVE").1 hex
  have hm := h { id := 1, customer := 1, car := 1, type := "TEST_DRIVE",
                 status := "CONFIRMED", appointment_date := 5 } (by simp [sampleConfirmed])
  exact ⟨hex, by simpa using hm⟩

/-- Substituting the first profile found for `uid` (by its pk) with another
profile of the same `user_id` makes that the first find. -/
theorem find?_map_subst (uid : Nat) (l : List UserProfile) (p p' : UserProfile)
    (hfind : l.find? (fun x => x.user_id == uid) = some p)
    (hup : p'.user_id = uid) :
    (l.map (fun q => if q.id == p.id then p' else q)).find? (fun x => x.user_id == uid) =
      some p' := by
  induction l with
  | nil => simp at hfind
  | cons x xs ih =>
    by_cases hx : x.user_id = uid
    · rw [List.find?_cons_of_pos _ (by simp [hx])] at hfind
      obtain rfl : x = p := by simpa using hfind
      simp only [List.map_cons, beq_self_eq_true, if_true]
      exact List.find?_cons_of_pos _ (by simp [hup])
    · rw [List.find?_cons_of_neg _ (by simp [hx])] at hfind
      simp only [List.map_cons]
      by_cases hxi : x.id = p.id
      · simp only [hxi, beq_self_eq_true, if_true]
        exact List.find?_cons_of_pos _ (by simp [hup])
      · rw [if_neg (by simpa using hxi)]
        rw [List.find?_cons_of_neg _ (by simp [hx])]
        exact ih hfind

/-- Appending a matching profile to a list with no match makes it the find. -/
theorem find?_append_eq (uid : Nat) (l : List UserProfile) (p' : UserProfile)
    (hnone : l.find? (fun x => x.user_id == uid) = none)
    (hup : p'.user_id = uid) :
    (l ++ [p']).find? (fun x => x.user_id == uid) = some p' := by
  induction l with
  | nil =>
    rw [List.nil_append]
    exact List.find?_cons_of_pos _ (by simp [hup])
  | cons x xs ih =>
    rw [List.find?_cons] at hnone
    cases hx : (x.user_id == uid) with
    | true => simp [hx] at hnone
    | false =>
      simp only [hx] at hnone
      rw [List.cons_append, List.find?_cons_of_neg _ (by simp_all)]
      exact ih (by simpa using hnone)

/-- `onboard_user` when the user exists and already has a profile: the exact
message and the pk-targeted profile update. -/
theorem onboard_user_found (store : Store) (uid : Nat) (fn nn lic ph : String)
    (p : UserProfile) (hu : uid ∈ store.users)
    (hfind : store.profiles.find? (fun x => x.user_id == uid) = some p) :
    onboard_user store uid fn nn lic ph =
      ("User " ++ fn ++ " (Nickname: " ++ nn ++ ") onboarded successfully with License ID: " ++
         lic ++ ".",
       { store with profiles := store.profiles.map (fun q =>
           if q.id == p.id then
             { id := p.id, user_id := p.user_id, full_name := some fn, nickname := some nn,
               license_id := some lic, phone := if ph ≠ "" then some ph else p.phone }
           else q) }) := by
  unfold onboard_user
  rw [if_pos hu, hfind]

/-- `onboard_user` when the user exists but has no profile yet: the exact
message and the appended fresh profile. -/
theorem onboard_user_new (store : Store) (uid : Nat) (fn nn lic ph : String)
    (hu : uid ∈ store.users)
    (hfind : store.profiles.find? (fun x => x.user_id == uid) = none) :
    onboard_user store uid fn nn lic ph =
      ("User " ++ fn ++ " (Nickname: " ++ nn ++ ") onboarded successfully with License ID: " ++
         lic ++ ".",
       { store with
           profiles := store.profiles ++
             [{ id := store.nextProfileId, user_id := uid, full_name := some fn,
                nickname := some nn, license_id := some lic,
                phone := if ph ≠ "" then some ph else none }],
           nextProfileId := store.nextProfileId + 1 }) := by
  unfold onboard_user
  rw [if_pos hu, hfind]

/-- Re-running a pk-targeted substitution with the same profile is the
identity on the once-substituted list. -/
theorem map_subst_idem (l : List UserProfile) (pid : Nat) (a : UserProfile)
    (haid : a.id = pid) :
    (l.map (fun q => if q.id == pid then a else q)).map
        (fun q => if q.id == a.id then a else q) =
      l.map (fun q => if q.id == pid then a else q) := by
  subst haid
  rw [List.map_map]
  apply List.map_congr_left
  intro x _
  by_cases hq : x.id = a.id
  · simp [Function.comp, hq]
  · simp [Function.comp, hq]

/-- A pk-targeted substitution rewriting a freshly appended profile to itself
is the identity. -/
theorem map_subst_fresh (l : List UserProfile) (a : UserProfile)
    (hfr : ∀ q ∈ l, q.id ≠ a.id) :
    (l ++ [a]).map (fun q => if q.id == a.id then a else q) = l ++ [a] := by
  rw [List.map_append]
  congr 1
  · have hcongr : ∀ q ∈ l, (if q.id == a.id then a else q) = q := by
      intro q hq
      simp [hfr q hq]
    rw [List.map_congr_left hcongr]
    exact List.map_id' l
  · simp

/-- Calling `onboard_user` again with the arguments a profile already carries
is a no-op on the store. -/
theorem onboard_user_repeat (s : Store) (uid : Nat) (fn nn lic ph : String)
    (a : UserProfile) (hu : uid ∈ s.users)
    (hfind : s.profiles.find? (fun x => x.user_id == uid) = some a)
    (hfn : a.full_name = some fn) (hnn : a.nickname = some nn)
    (hlic : a.license_id = some lic)
    (hph : (if ph ≠ "" then some ph else a.phone) = a.phone)
    (hmap : s.profiles.map (fun q => if q.id == a.id then a else q) = s.profiles) :
    onboard_user s uid fn nn lic ph =
      ("User " ++ fn ++ " (Nickname: " ++ nn ++ ") onboarded successfully with License ID: " ++
        lic ++ ".", s) := by
  rw [onboard_user_found s uid fn nn lic ph a hu hfind]
  have hrec : ({ id := a.id, user_id := a.user_id, full_name := some fn, nickname := some nn,
                 license_id := some lic, phone := if ph ≠ "" then some ph else a.phone } :
      UserProfile) = a := by
    cases a
    simp_all
  rw [hrec, hmap]

/-- C6: `onboard_user` on a nonexistent identity returns the error string and
mutates nothing; on an existing identity, repeating the identical call returns
the same message and the same store (so every profile field converges).  The
hypothesis is the store's pk-freshness invariant. -/
theorem C6_onboard_error_and_idempotent (store : Store) (uid : Nat) (fn nn lic ph : String)
    (hfresh : ∀ p ∈ store.profiles, p.id < store.nextProfileId) :
    (uid ∉ store.users →
      onboard_user store uid fn nn lic ph = ("Error: User not found.", store)) ∧
    (uid ∈ store.users →
      onboard_user (onboard_user store uid fn nn lic ph).2 uid fn nn lic ph =
        onboard_user store uid fn nn lic ph) := by
  constructor
  · intro hu
    unfold onboard_user
    rw [if_neg hu]
  · intro hu
    cases hfind : store.profiles.find? (fun x => x.user_id == uid) with
    | some p =>
      have hpuid : p.user_id = uid := by simpa using List.find?_some hfind
      rw [onboard_user_found store uid fn nn lic ph p hu hfind]
      dsimp only
      exact onboard_user_repeat _ uid fn nn lic ph
        { id := p.id, user_id := p.user_id, full_name := some fn, nickname := some nn,
          license_id := some lic, phone := if ph ≠ "" then some ph else p.phone }
        hu
        (find?_map_subst uid store.profiles p
          { id := p.id, user_id := p.user_id, full_name := some fn, nickname := some nn,
            license_id := some lic, phone := if ph ≠ "" then some ph else p.phone }
          hfind hpuid)
        rfl rfl rfl
        (by by_cases hph : ph = "" <;> simp [hph])
        (map_subst_idem store.profiles p.id _ rfl)
    | none =>
      rw [onboard_user_new store uid fn nn lic ph hu hfind]
      dsimp only
      exact onboard_user_repeat _ uid fn nn lic ph
        { id := store.nextProfileId, user_id := uid, full_name := some fn, nickname := some nn,
          license_id := some lic, phone := if ph ≠ "" then some ph else none }
        hu
        (find?_append_eq uid store.profiles
          { id := store.nextProfileId, user_id := uid, full_name := some fn, nickname := some nn,
            license_id := some lic, phone := if ph ≠ "" then some ph else none }
          hfind rfl)
        rfl rfl rfl
        (by by_cases hph : ph = "" <;> simp [hph])
        (map_subst_fresh store.profiles _
          (fun q hq => Nat.ne_of_lt (hfresh q hq)))

/-- C6 witness: onboarding a missing identity errors without mutation, and on
an existing identity the repeated call is a no-op. -/
theorem C6_onboard_error_and_idempotent_witness :
    ((99 ∉ sampleConfirmed.users) ∧
      onboard_user sampleConfirmed 99 "Alice" "Al" "X123" "" =
        ("Error: User not found.", sampleConfirmed)) ∧
    ((7 ∈ sampleConfirmed.users) ∧
      onboard_user (onboard_user sampleConfirmed 7 "Alice" "Al" "X123" "").2 7 "Alice" "Al" "X123" "" =
        onboard_user sampleConfirmed 7 "Alice" "Al" "X123" "") := by
  have hfresh : ∀ p ∈ sampleConfirmed.profiles, p.id < sampleConfirmed.nextProfileId := by decide
  have h := C6_onboard_error_and_idempotent sampleConfirmed 99 "Alice" "Al" "X123" "" hfresh
  have h7 := C6_onboard_error_and_idempotent sampleConfirmed 7 "Alice" "Al" "X123" "" hfresh
  exact ⟨⟨by decide, h.1 (by decide)⟩, ⟨by decide, h7.2 (by decide)⟩⟩

/-- C9: with an empty phone argument, `onboard_user` leaves the existing
profile's phone unchanged while always overwriting full_name, nickname and
license_id; the profile's identity fields and every other part of the store
are untouched. -/
theorem C9_onboard_phone_frame (store : Store) (uid : Nat) (fn nn lic : String)
    (p : UserProfile) (hu : uid ∈ store.users)
    (hfind : store.profiles.find? (fun x => x.user_id == uid) = some p) :
    (onboard_user store uid fn nn lic "").2.profiles =
      store.profiles.map (fun q =>
        if q.id = p.id then
          { id := p.id, user_id := p.user_id, full_name := some fn, nickname := some nn,
            license_id := some lic, phone := p.phone }
        else q) ∧
    (onboard_user store uid fn nn lic "").2.users = store.users ∧
    (onboard_user store uid fn nn lic "").2.cars = store.cars ∧
    (onboard_user store uid fn nn lic "").2.txns = store.txns ∧
    (onboard_user store uid fn nn lic "").2.nextProfileId = store.nextProfileId := by
  rw [onboard_user_found store uid fn nn lic "" p hu hfind]
  refine ⟨?_, rfl, rfl, rfl, rfl⟩
  apply List.map_congr_left
  intro q _
  by_cases hq : q.id = p.id <;> simp [hq]

/-- Sample store for the phone-preservation witness. -/
def samplePhone : Store :=
  { users := [7],
    profiles := [{ id := 1, user_id := 7, full_name := some "Old", nickname := some "O",
                   license_id := some "L0", phone := some "555" }],
    cars := [], txns := [], nextProfileId := 2, nextCarId := 1, nextTxnId := 1, now := 0 }

/-- C9 witness: onboarding with an empty phone overwrites the three identity
fields and keeps the stored phone. -/
theorem C9_onboard_phone_frame_witness :
    (7 ∈ samplePhone.users) ∧
    (onboard_user samplePhone 7 "Alice" "Al" "X123" "").2.profiles =
      [{ id := 1, user_id := 7, full_name := some "Alice", nickname := some "Al",
         license_id := some "X123", phone := some "555" }] := by
  have h := C9_onboard_phone_frame samplePhone 7 "Alice" "Al" "X123"
    { id := 1, user_id := 7, full_name := some "Old", nickname := some "O",
      license_id := some "L0", phone := some "555" } (by decide) rfl
  refine ⟨by decide, ?_⟩
  rw [h.1]
  rfl

/-- Listing filter in the claim's words: AVAILABLE and, for a non-empty query,
a case-insensitive model-substring match. -/
def searchSpecList (store : Store) (q : String) : List EVCar :=
  store.cars.filter (fun c => c.status == "AVAILABLE" && (q == "" || icontains c.model_name q))

/-- C3: `search_cars` renders exactly the AVAILABLE cars passing the
(empty-or-substring) query filter, one `carLine` each, and the no-results
string when none pass; membership in that listing is AVAILABLE plus the
case-insensitive substring condition, so no RENTED or MAINTENANCE vehicle ever
appears. -/
theorem C3_search_cars_spec (store : Store) (q : String) :
    (search_cars store q =
      if (searchSpecList store q).isEmpty then "No available cars found matching your criteria."
      else String.intercalate "\n" ((searchSpecList store q).map carLine)) ∧
    ∀ c : EVCar, c ∈ searchSpecList store q ↔
      c ∈ store.cars ∧ c.status = "AVAILABLE" ∧ (q = "" ∨ icontains c.model_name q = true) := by
  constructor
  · by_cases hq : q = ""
    · subst hq
      have hfun : (fun c : EVCar =>
            c.status == "AVAILABLE" && (("" : String) == "" || icontains c.model_name "")) =
          (fun c : EVCar => c.status == "AVAILABLE") := by
        funext c
        simp
      simp only [search_cars, searchSpecList, hfun]
      simp
    · have hqb : (q == "") = false := by simpa using hq
      have hfun : (fun c : EVCar =>
            c.status == "AVAILABLE" && ((q == "") || icontains c.model_name q)) =
          (fun c : EVCar => icontains c.model_name q && c.status == "AVAILABLE") := by
        funext c
        simp [hqb, Bool.and_comm]
      simp only [search_cars, searchSpecList, hfun]
      rw [if_pos hq, List.filter_filter]
  · intro c
    simp only [searchSpecList, List.mem_filter, Bool.and_eq_true, Bool.or_eq_true, beq_iff_eq,
      and_assoc]

/-- In a pk-sorted list, `find?` returns a minimal-pk satisfier. -/
theorem find?_min_id (p : EVCar → Bool) (a : EVCar) :
    ∀ l : List EVCar, l.Pairwise (fun a b => a.id < b.id) → l.find? p = some a →
      ∀ b ∈ l, p b = true → a.id ≤ b.id := by
  intro l
  induction l with
  | nil =>
    intro _ hfind
    simp at hfind
  | cons x xs ih =>
    intro hsort hfind b hb hpb
    rw [List.pairwise_cons] at hsort
    by_cases hx : p x = true
    · rw [List.find?_cons_of_pos _ hx] at hfind
      obtain rfl : x = a := by simpa using hfind
      rcases List.mem_cons.mp hb with rfl | hb
      · exact Nat.le_refl _
      · exact Nat.le_of_lt (hsort.1 b hb)
    · rw [List.find?_cons_of_neg _ (by simpa using hx)] at hfind
      rcases List.mem_cons.mp hb with rfl | hb
      · exact absurd hpb hx
      · exact ih hsort.2 hfind b hb hpb

/-- C4: a successful draft never picks a non-AVAILABLE car; with the cars in
ascending-pk (creation) order — the order Django's `.first()` imposes on an
unordered queryset — the chosen car is the matching AVAILABLE car of least pk,
and the created DRAFT row references exactly that car. -/
theorem C4_draft_picks_first_available (store : Store) (uid : Nat) (q date ty : String)
    (hsort : store.cars.Pairwise (fun a b => a.id < b.id))
    (hu : uid ∈ store.users) (car : EVCar)
    (hfind : findAvailableCar store q = some car) :
    car.status = "AVAILABLE" ∧ icontains car.model_name q = true ∧
    (∀ c ∈ store.cars, c.status = "AVAILABLE" → icontains c.model_name q = true →
      car.id ≤ c.id) ∧
    ∃ t : Transaction,
      (create_transaction_draft store uid q date ty).2.txns = store.txns ++ [t] ∧
      t.car = car.id ∧ t.status = "DRAFT" := by
  have hpcar : icontains car.model_name q = true ∧ car.status = "AVAILABLE" := by
    simpa using List.find?_some hfind
  refine ⟨hpcar.2, hpcar.1, ?_, ?_⟩
  · intro c hc hst hic
    exact find?_min_id _ car store.cars hsort hfind c hc (by simp [hst, hic])
  · unfold create_transaction_draft
    rw [if_pos hu]
    have hfind2 : findAvailableCar (getOrCreateProfile store uid).2 q = some car := by
      unfold findAvailableCar at hfind ⊢
      rw [getOrCreateProfile_cars]
      exact hfind
    simp only [hfind2, getOrCreateProfile_txns]
    exact ⟨_, rfl, rfl, rfl⟩

/-- The first of the two Model X cars of the C4 witness store. -/
def carModelX : EVCar :=
  { id := 1, model_name := "Model X", range_km := 400, price_per_day := "99.00",
    status := "AVAILABLE" }

/-- The witness store of the spec's Model X example: two AVAILABLE cars whose
model names both contain "Model X", in creation order. -/
def sampleTwoCars : Store :=
  { users := [7], profiles := [],
    cars := [carModelX,
             { id := 2, model_name := "Model X Pro", range_km := 500,
               price_per_day := "129.00", status := "AVAILABLE" }],
    txns := [], nextProfileId := 1, nextCarId := 3, nextTxnId := 1, now := 0 }

/-- C4 witness: with "Model X" and "Model X Pro" both AVAILABLE, the query
"Model X" picks the first-created car and drafts against it. -/
theorem C4_draft_picks_first_available_witness :
    (sampleTwoCars.cars.Pairwise (fun a b => a.id < b.id)) ∧
    (7 ∈ sampleTwoCars.users) ∧
    (findAvailableCar sampleTwoCars "Model X" = some carModelX) ∧
    ∃ t : Transaction,
      (create_transaction_draft sampleTwoCars 7 "Model X" "tomorrow" "TEST_DRIVE").2.txns =
        sampleTwoCars.txns ++ [t] ∧ t.car = carModelX.id ∧ t.status = "DRAFT" := by
  have hsort : sampleTwoCars.cars.Pairwise (fun a b => a.id < b.id) := by
    simp [sampleTwoCars, List.pairwise_cons, carModelX]
  have hfind : findAvailableCar sampleTwoCars "Model X" = some carModelX := by rfl
  have h := C4_draft_picks_first_available sampleTwoCars 7 "Model X" "tomorrow" "TEST_DRIVE"
    hsort (by decide) carModelX hfind
  exact ⟨hsort, by decide, hfind, h.2.2.2⟩

/-- The empty store. -/
def emptyStore : Store :=
  { users := [], profiles := [], cars := [], txns := [],
    nextProfileId := 1, nextCarId := 1, nextTxnId := 1, now := 0 }

/-- A one-row inventory file creating one new vehicle. -/
def sampleRows : List CsvRow :=
  [{ model_name := "Model 3", range_km := 350, price_per_day := "49.00", status := "AVAILABLE" }]

/-- C7 counterexample: a load that creates exactly one new vehicle writes only
the fixed success line, which contains no digit at all, so the count of newly
created records (1) is not reported to the caller. -/
theorem C7_count_not_reported :
    loadCreatedCount emptyStore sampleRows = 1 ∧
    (load_inventory emptyStore (some sampleRows)).2 = ["Successfully loaded/updated inventory."] ∧
    ("Successfully loaded/updated inventory.".data.all (fun c => !c.isDigit)) = true := by
  refine ⟨by decide, rfl, by decide⟩

/-- C7 (amended): the loader upserts one vehicle per row keyed by model_name
and tracks the count of newly created records internally, but reports only a
fixed success message without the count; a missing file is a warning with no
store mutation. -/
theorem C7_loader_upsert_fixed_report (store s : Store) (rows : List CsvRow) (r : CsvRow) :
    (load_inventory store none = (store, ["Data file not found at /app/data/cars.csv"])) ∧
    ((load_inventory store (some rows)).2 = ["Successfully loaded/updated inventory."]) ∧
    ((load_inventory store (some rows)).1 = rows.foldl upsertRow store) ∧
    ((∃ c ∈ s.cars, c.model_name = r.model_name) →
      (upsertRow s r).cars.length = s.cars.length ∧
      ∀ c ∈ s.cars,
        (if c.model_name = r.model_name then
           { c with
             range_km := r.range_km, price_per_day := r.price_per_day,
             status := r.status }
         else c) ∈ (upsertRow s r).cars) ∧
    ((∀ c ∈ s.cars, c.model_name ≠ r.model_name) →
      (upsertRow s r).cars = s.cars ++
        [{ id := s.nextCarId, model_name := r.model_name, range_km := r.range_km,
           price_per_day := r.price_per_day, status := r.status }]) := by
  refine ⟨rfl, rfl, rfl, fun h => ?_, fun h => ?_⟩
  · obtain ⟨c0, hc0, hname⟩ := h
    cases hfind : s.cars.find? (fun c => c.model_name == r.model_name) with
    | none => exact absurd hfind (find?_ne_none_of_mem hc0 (by simp [hname]))
    | some u =>
      unfold upsertRow
      rw [hfind]
      refine ⟨by simp, fun c hc => ?_⟩
      by_cases hcn : c.model_name = r.model_name
      · simpa [hcn] using List.mem_map_of_mem (fun c : EVCar =>
          if c.model_name == r.model_name then
            { c with
              range_km := r.range_km, price_per_day := r.price_per_day,
              status := r.status }
          else c) hc
      · simpa [hcn] using List.mem_map_of_mem (fun c : EVCar =>
          if c.model_name == r.model_name then
            { c with
              range_km := r.range_km, price_per_day := r.price_per_day,
              status := r.status }
          else c) hc
  · have hfind : s.cars.find? (fun c => c.model_name == r.model_name) = none :=
      List.find?_eq_none.mpr (fun c hc => by simp [h c hc])
    unfold upsertRow
    rw [hfind]

/-- C7 witness: a missing file is a pure warning, and on an empty store the
single row appends one new vehicle. -/
theorem C7_loader_upsert_fixed_report_witness :
    (load_inventory emptyStore none =
      (emptyStore, ["Data file not found at /app/data/cars.csv"])) ∧
    ((∀ c ∈ emptyStore.cars,
        c.model_name ≠ ("Model 3" : String)) ∧
      (upsertRow emptyStore
          { model_name := "Model 3", range_km := 350, price_per_day := "49.00",
            status := "AVAILABLE" }).cars =
        emptyStore.cars ++
          [{ id := emptyStore.nextCarId, model_name := "Model 3", range_km := 350,
             price_per_day := "49.00", status := "AVAILABLE" }]) := by
  have h := C7_loader_upsert_fixed_report emptyStore emptyStore sampleRows
    { model_name := "Model 3", range_km := 350, price_per_day := "49.00",
      status := "AVAILABLE" }
  exact ⟨h.1, ⟨by simp [emptyStore], h.2.2.2.2 (by simp [emptyStore])⟩⟩

/-! ### Inversion of the `json.dumps` escapes -/

/-- `hexVal` inverts `hexChar` below 16. -/
theorem hexVal_hexChar (d : Nat) (h : d < 16) : hexVal (hexChar d) = some d := by
  have hall : ∀ k, k < 16 → hexVal (hexChar k) = some k := by decide
  exact hall d h

/-- A `\uXXXX` escape of a non-surrogate BMP code point decodes to itself. -/
theorem parseStrF_u (fuel n : Nat) (rest : List Char)
    (hn : n < 0x10000) (hsur : ¬(0xD800 ≤ n ∧ n ≤ 0xDFFF)) :
    parseStrF (fuel + 1) ('\\' :: 'u' :: (hex4 n ++ rest)) =
      (parseStrF fuel rest).map (fun p => (Char.ofNat n :: p.1, p.2)) := by
  have h16 : ∀ k : Nat, k % 16 < 16 := fun k => Nat.mod_lt _ (by omega)
  have harith : ((n / 4096 % 16 * 16 + n / 256 % 16) * 16 + n / 16 % 16) * 16 + n % 16 = n := by
    omega
  have hs1 : ¬(0xD800 ≤ n ∧ n ≤ 0xDBFF) := by omega
  have hs2 : ¬(0xDC00 ≤ n ∧ n ≤ 0xDFFF) := by omega
  simp only [hex4, List.cons_append, List.nil_append, parseStrF,
    hexVal_hexChar _ (h16 _), harith]
  simp [hs1, hs2]

/-- A surrogate-pair escape decodes to the combined code point. -/
theorem parseStrF_u_pair (fuel hi lo : Nat) (rest : List Char)
    (hhi1 : 0xD800 ≤ hi) (hhi2 : hi ≤ 0xDBFF) (hlo1 : 0xDC00 ≤ lo) (hlo2 : lo ≤ 0xDFFF) :
    parseStrF (fuel + 1) ('\\' :: 'u' :: (hex4 hi ++ ('\\' :: 'u' :: (hex4 lo ++ rest)))) =
      (parseStrF fuel rest).map
        (fun p => (Char.ofNat (0x10000 + (hi - 0xD800) * 0x400 + (lo - 0xDC00)) :: p.1, p.2)) := by
  have h16 : ∀ k : Nat, k % 16 < 16 := fun k => Nat.mod_lt _ (by omega)
  have hariHi : ((hi / 4096 % 16 * 16 + hi / 256 % 16) * 16 + hi / 16 % 16) * 16 + hi % 16 = hi := by
    omega
  have hariLo : ((lo / 4096 % 16 * 16 + lo / 256 % 16) * 16 + lo / 16 % 16) * 16 + lo % 16 = lo := by
    omega
  simp only [hex4, List.cons_append, List.nil_append, parseStrF,
    hexVal_hexChar _ (h16 _), hariHi, hariLo]
  simp [hhi1, hhi2, hlo1, hlo2]

theorem parseStrF_escapeChar (c : Char) (fuel : Nat) (rest : List Char) :
    parseStrF (fuel + 1) (escapeChar c ++ rest) =
      (parseStrF fuel rest).map (fun p => (c :: p.1, p.2)) := by
  have hvalid : c.toNat < 0xD800 ∨ (0xDFFF < c.toNat ∧ c.toNat < 0x110000) := by
    cases c.valid with
    | inl h => exact Or.inl h
    | inr h => exact Or.inr h
  unfold escapeChar
  by_cases h1 : c = '"'
  · subst h1
    simp [parseStrF]
  rw [if_neg h1]
  by_cases h2 : c = '\\'
  · subst h2
    simp [parseStrF]
  rw [if_neg h2]
  by_cases h3 : c = '\n'
  · subst h3
    simp [parseStrF]
  rw [if_neg h3]
  by_cases h4 : c = '\r'
  · subst h4
    simp [parseStrF]
  rw [if_neg h4]
  by_cases h5 : c = '\t'
  · subst h5
    simp [parseStrF]
  rw [if_neg h5]
  by_cases h6 : c.toNat = 8
  · rw [if_pos h6]
    have hc : c = Char.ofNat 8 := by rw [← h6, Char.ofNat_toNat]
    subst hc
    simp [parseStrF]
  rw [if_neg h6]
  by_cases h7 : c.toNat = 12
  · rw [if_pos h7]
    have hc : c = Char.ofNat 12 := by rw [← h7, Char.ofNat_toNat]
    subst hc
    simp [parseStrF]
  rw [if_neg h7]
  by_cases h8 : c.toNat < 0x20
  · rw [if_pos h8]
    have hu := parseStrF_u fuel c.toNat rest (by omega) (by omega)
    simpa [List.cons_append, Char.ofNat_toNat] using hu
  rw [if_neg h8]
  by_cases h9 : c.toNat ≤ 0x7E
  · rw [if_pos h9, List.singleton_append]
    rw [parseStrF.eq_def]
    simp [h1, h2, h8]
  rw [if_neg h9]
  by_cases h10 : c.toNat ≤ 0xFFFF
  · rw [if_pos h10]
    have hsur : ¬(0xD800 ≤ c.toNat ∧ c.toNat ≤ 0xDFFF) := by omega
    have hu := parseStrF_u fuel c.toNat rest (by omega) hsur
    simpa [List.cons_append, Char.ofNat_toNat] using hu
  · rw [if_neg h10]
    have hpair := parseStrF_u_pair fuel (0xD800 + (c.toNat - 0x10000) / 0x400)
      (0xDC00 + (c.toNat - 0x10000) % 0x400) rest (by omega) (by omega) (by omega) (by omega)
    have hchar : Char.ofNat (0x10000 +
        ((0xD800 + (c.toNat - 0x10000) / 0x400) - 0xD800) * 0x400 +
        ((0xDC00 + (c.toNat - 0x10000) % 0x400) - 0xDC00)) = c := by
      have harith : 0x10000 + ((0xD800 + (c.toNat - 0x10000) / 0x400) - 0xD800) * 0x400 +
          ((0xDC00 + (c.toNat - 0x10000) % 0x400) - 0xDC00) = c.toNat := by omega
      rw [harith, Char.ofNat_toNat]
    rw [hchar] at hpair
    simpa [List.cons_append, List.append_assoc] using hpair

set_option maxHeartbeats 1000000 in
/-- Escaping never shortens a string. -/
theorem pyEscape_length_ge (s : List Char) : s.length ≤ (pyEscape s).length := by
  induction s with
  | nil => simp [pyEscape]
  | cons c s ih =>
    have h1 : 1 ≤ (escapeChar c).length := by
      unfold escapeChar
      split_ifs <;> simp [hex4]
    simp only [pyEscape, List.flatMap_cons, List.length_append, List.length_cons] at ih ⊢
    omega

/-- Decoding inverts `json.dumps` escaping of a whole string body, up to the
closing quote. -/
theorem parseStrF_pyEscape (s : List Char) : ∀ (fuel : Nat) (rest : List Char),
    s.length < fuel →
    parseStrF fuel (pyEscape s ++ '"' :: rest) = some (s, rest) := by
  induction s with
  | nil =>
    intro fuel rest h
    cases fuel with
    | zero => omega
    | succ f => simp [pyEscape, parseStrF]
  | cons c s ih =>
    intro fuel rest h
    cases fuel with
    | zero => omega
    | succ f =>
      have hs : s.length < f := by
        simp only [List.length_cons] at h
        omega
      have hesc : pyEscape (c :: s) = escapeChar c ++ pyEscape s := by
        simp [pyEscape]
      rw [hesc, List.append_assoc, parseStrF_escapeChar, ih f rest hs]
      rfl

/-- The wrapped string parser inverts escaping. -/
theorem parseStr_pyEscape (s rest : List Char) :
    parseStr (pyEscape s ++ '"' :: rest) = some (s, rest) := by
  unfold parseStr
  apply parseStrF_pyEscape
  have := pyEscape_length_ge s
  simp only [List.length_append, List.length_cons]
  omega

/-- A printable ASCII character with no special meaning escapes to itself. -/
theorem escapeChar_plain (c : Char) (h1 : c ≠ '"') (h2 : c ≠ '\\')
    (h3 : 0x20 ≤ c.toNat) (h4 : c.toNat ≤ 0x7E) : escapeChar c = [c] := by
  unfold escapeChar
  rw [if_neg h1, if_neg h2,
    if_neg (fun hc => absurd (hc ▸ h3) (by decide)),
    if_neg (fun hc => absurd (hc ▸ h3) (by decide)),
    if_neg (fun hc => absurd (hc ▸ h3) (by decide)),
    if_neg (by omega), if_neg (by omega), if_neg (by omega), if_pos h4]

/-- A plain ASCII literal is its own escape. -/
theorem pyEscape_plain (lit : List Char)
    (h : ∀ c ∈ lit, c ≠ '"' ∧ c ≠ '\\' ∧ 0x20 ≤ c.toNat ∧ c.toNat ≤ 0x7E) :
    pyEscape lit = lit := by
  induction lit with
  | nil => rfl
  | cons c l ih =>
    have hc := h c (by simp)
    have hl := ih (fun d hd => h d (by simp [hd]))
    simp only [pyEscape, List.flatMap_cons] at hl ⊢
    rw [escapeChar_plain c hc.1 hc.2.1 hc.2.2.1 hc.2.2.2, hl]
    rfl

/-- The wrapped string parser consumes a plain ASCII literal up to the closing
quote. -/
theorem parseStr_plain (lit rest : List Char)
    (h : ∀ c ∈ lit, c ≠ '"' ∧ c ≠ '\\' ∧ 0x20 ≤ c.toNat ∧ c.toNat ≤ 0x7E) :
    parseStr (lit ++ '"' :: rest) = some (lit, rest) := by
  have := parseStr_pyEscape lit rest
  rwa [pyEscape_plain lit h] at this

/-! ### Inversion of the decimal rendering -/

/-- `decChar` produces digits. -/
theorem decChar_isDig (m : Nat) (h : m < 10) : isDig (decChar m) = true := by
  have hall : ∀ k, k < 10 → isDig (decChar k) = true := by decide
  exact hall m h

/-- `decChar` digit value. -/
theorem decChar_val (m : Nat) (h : m < 10) : (decChar m).toNat - 48 = m := by
  have hall : ∀ k, k < 10 → (decChar k).toNat - 48 = k := by decide
  exact hall m h

/-- A nonzero value below 10 does not print as the zero digit. -/
theorem decChar_ne_zero (m : Nat) (h0 : 0 < m) (h : m < 10) : decChar m ≠ '0' := by
  have hall : ∀ k, k < 10 → 0 < k → decChar k ≠ '0' := by decide
  exact hall m h h0

/-- Folding the digit-accumulation step over printed digits recovers the value
shifted under the accumulator. -/
theorem natDecFuel_foldl : ∀ (fuel n acc : Nat), n < fuel →
    (natDecFuel fuel n).foldl (fun a c => a * 10 + (c.toNat - 48)) acc =
      acc * 10 ^ (natDecFuel fuel n).length + n := by
  intro fuel
  induction fuel with
  | zero =>
    intro n acc h
    omega
  | succ f ih =>
    intro n acc h
    rw [natDecFuel]
    by_cases hn : n < 10
    · rw [if_pos hn]
      simp [decChar_val n hn]
    · rw [if_neg hn, List.foldl_append]
      have hdiv : n / 10 < f := by
        have h1 : n / 10 < n := Nat.div_lt_self (by omega) (by omega)
        omega
      rw [ih (n / 10) acc hdiv]
      simp only [List.foldl_cons, List.foldl_nil, List.length_append, List.length_cons,
        List.length_nil, decChar_val (n % 10) (Nat.mod_lt _ (by omega))]
      rw [pow_succ]
      generalize (10 : Nat) ^ (natDecFuel f (n / 10)).length = k
      rw [Nat.add_mul, Nat.mul_assoc]
      omega

/-- All printed characters are digits. -/
theorem natDecFuel_digits : ∀ (fuel n : Nat), ∀ c ∈ natDecFuel fuel n, isDig c = true := by
  intro fuel
  induction fuel with
  | zero =>
    intro n c hc
    simp [natDecFuel] at hc
  | succ f ih =>
    intro n c hc
    rw [natDecFuel] at hc
    by_cases hn : n < 10
    · rw [if_pos hn] at hc
      simp at hc
      rw [hc]
      exact decChar_isDig n hn
    · rw [if_neg hn] at hc
      rcases List.mem_append.mp hc with hc | hc
      · exact ih (n / 10) c hc
      · simp at hc
        rw [hc]
        exact decChar_isDig (n % 10) (Nat.mod_lt _ (by omega))

/-- A positive value prints with a nonzero leading digit. -/
theorem natDecFuel_head : ∀ (fuel n : Nat), 0 < n → n < fuel →
    ∃ d ds, natDecFuel fuel n = d :: ds ∧ d ≠ '0' ∧ isDig d = true := by
  intro fuel
  induction fuel with
  | zero =>
    intro n h0 h
    omega
  | succ f ih =>
    intro n h0 h
    rw [natDecFuel]
    by_cases hn : n < 10
    · rw [if_pos hn]
      exact ⟨decChar n, [], rfl, decChar_ne_zero n h0 hn, decChar_isDig n hn⟩
    · rw [if_neg hn]
      have hdiv : n / 10 < f := by
        have h1 : n / 10 < n := Nat.div_lt_self (by omega) (by omega)
        omega
      obtain ⟨d, ds, heq, hne, hdig⟩ := ih (n / 10) (by omega) hdiv
      exact ⟨d, ds ++ [decChar (n % 10)], by rw [heq, List.cons_append], hne, hdig⟩

/-- The digit scan stops at the first non-digit. -/
theorem parseDigitsAcc_cons_neg (acc : Nat) (c : Char) (cs : List Char)
    (h : isDig c = false) : parseDigitsAcc acc (c :: cs) = (acc, c :: cs) := by
  simp [parseDigitsAcc, h]

/-- The digit scan consumes a digit run and folds up its value. -/
theorem parseDigitsAcc_run (ds : List Char) : ∀ (acc : Nat) (c : Char) (cs : List Char),
    (∀ d ∈ ds, isDig d = true) → isDig c = false →
    parseDigitsAcc acc (ds ++ c :: cs) =
      (ds.foldl (fun a ch => a * 10 + (ch.toNat - 48)) acc, c :: cs) := by
  induction ds with
  | nil =>
    intro acc c cs _ hc
    simpa using parseDigitsAcc_cons_neg acc c cs hc
  | cons d ds ih =>
    intro acc c cs hds hc
    have hd := hds d (by simp)
    rw [List.cons_append]
    rw [show parseDigitsAcc acc (d :: (ds ++ c :: cs)) =
      parseDigitsAcc (acc * 10 + (d.toNat - 48)) (ds ++ c :: cs) by simp [parseDigitsAcc, hd]]
    rw [ih _ c cs (fun x hx => hds x (by simp [hx])) hc]
    rfl

/-- `scanFrac` consumes nothing when the input does not start with a dot. -/
theorem scanFrac_no (c : Char) (cs : List Char) (h : c ≠ '.') :
    scanFrac (c :: cs) = (none, c :: cs) := by
  rw [scanFrac.eq_def]
  split
  · rename_i r heq
    cases heq
    exact absurd rfl h
  · rfl

/-- `scanExp` consumes nothing when the input does not start with an exponent
marker. -/
theorem scanExp_no (c : Char) (cs : List Char) (h1 : c ≠ 'e') (h2 : c ≠ 'E') :
    scanExp (c :: cs) = (none, c :: cs) := by
  simp [scanExp, h1, h2]

/-- `parseNum` of a rendered non-negative integer followed by a delimiter that
opens neither a fraction, an exponent nor another digit. -/
theorem parseNum_natDec (n : Nat) (c : Char) (cs : List Char)
    (hc1 : isDig c = false) (hc2 : c ≠ '.') (hc3 : c ≠ 'e') (hc4 : c ≠ 'E') :
    parseNum (natDec n ++ c :: cs) = some (Json.num (n : Int), c :: cs) := by
  have hmk : mkNum false n (c :: cs) = some (Json.num (n : Int), c :: cs) := by
    unfold mkNum
    rw [scanFrac_no c cs hc2]
    dsimp only
    rw [scanExp_no c cs hc3 hc4]
    rfl
  by_cases h0 : n = 0
  · subst h0
    rw [show natDec 0 = ['0'] from rfl, List.cons_append, List.nil_append]
    rw [show parseNum ('0' :: c :: cs) = parseNumCore false ('0' :: c :: cs) by
      rw [parseNum.eq_def]
      split
      · rename_i r heq
        cases heq
      · rfl]
    simpa [parseNumCore] using hmk
  · obtain ⟨d, ds, heq, hne, hdig⟩ := natDecFuel_head (n + 1) n (by omega) (by omega)
    have hdall : ∀ x ∈ natDec n, isDig x = true := natDecFuel_digits (n + 1) n
    have hdmin : d ≠ '-' := by
      intro hd
      rw [hd] at hdig
      simp [isDig] at hdig
    rw [show natDec n = d :: ds from heq, List.cons_append]
    rw [show parseNum (d :: (ds ++ c :: cs)) = parseNumCore false (d :: (ds ++ c :: cs)) by
      rw [parseNum.eq_def]
      split
      · rename_i r heq2
        cases heq2
        exact absurd rfl hdmin
      · rfl]
    rw [parseNumCore]
    rw [if_neg hne, if_pos hdig]
    have hds : ∀ x ∈ ds, isDig x = true := by
      intro x hx
      exact hdall x (by rw [show natDec n = d :: ds from heq]; simp [hx])
    have hrun := parseDigitsAcc_run ds (d.toNat - 48) c cs hds hc1
    have hfold := natDecFuel_foldl (n + 1) n 0 (by omega)
    rw [heq] at hfold
    simp only [List.foldl_cons, Nat.zero_mul, Nat.zero_add] at hfold
    rw [hrun]
    dsimp only
    rw [hfold]
    exact hmk

theorem skipWs_not_ws (c : Char) (X : List Char) (h : isJsonWs c = false) :
    skipWs (c :: X) = c :: X := by
  simp [skipWs, List.dropWhile, h]

theorem isDig_not_ws (c : Char) (h : isDig c = true) : isJsonWs c = false := by
  cases hw : isJsonWs c
  · rfl
  · exfalso
    simp [isJsonWs] at hw
    rcases hw with ((rfl | rfl) | rfl) | rfl <;> exact absurd h (by decide)

theorem skipWs_natDec (n : Nat) (X : List Char) :
    skipWs (natDec n ++ X) = natDec n ++ X := by
  by_cases h0 : n = 0
  · subst h0
    rfl
  · obtain ⟨d, ds, heq, _, hdig⟩ := natDecFuel_head (n + 1) n (by omega) (by omega)
    rw [show natDec n = d :: ds from heq, List.cons_append]
    exact skipWs_not_ws d _ (isDig_not_ws d hdig)

set_option maxHeartbeats 2000000 in
theorem parseP_members_cons (f : Nat) (key body r4 rest : List Char) (v : Json)
    (kvs : List (List Char × Json)) (r3 : List Char)
    (hkey : ∀ c ∈ key, c ≠ '"' ∧ c ≠ '\\' ∧ 0x20 ≤ c.toNat ∧ c.toNat ≤ 0x7E)
    (hval : parseP f PMode.value (skipWs body) = some (PRes.val v, r3))
    (hr3 : skipWs r3 = ',' :: r4)
    (hnext : parseP f PMode.members (skipWs r4) = some (PRes.mems kvs, rest)) :
    parseP (f + 1) PMode.members ('"' :: (key ++ ('"' :: ':' :: ' ' :: body))) =
      some (PRes.mems ((key, v) :: kvs), rest) := by
  have hstr := parseStr_plain key (':' :: ' ' :: body) hkey
  rw [parseP.eq_def]
  simp [hstr, show skipWs (':' :: ' ' :: body) = ':' :: ' ' :: body from rfl,
    show skipWs (' ' :: body) = skipWs body from rfl, hval, hr3, hnext]

set_option maxHeartbeats 2000000 in
theorem parseP_members_last (f : Nat) (key body r4 : List Char) (v : Json) (r3 : List Char)
    (hkey : ∀ c ∈ key, c ≠ '"' ∧ c ≠ '\\' ∧ 0x20 ≤ c.toNat ∧ c.toNat ≤ 0x7E)
    (hval : parseP f PMode.value (skipWs body) = some (PRes.val v, r3))
    (hr3 : skipWs r3 = '}' :: r4) :
    parseP (f + 1) PMode.members ('"' :: (key ++ ('"' :: ':' :: ' ' :: body))) =
      some (PRes.mems [(key, v)], r4) := by
  have hstr := parseStr_plain key (':' :: ' ' :: body) hkey
  rw [parseP.eq_def]
  simp [hstr, show skipWs (':' :: ' ' :: body) = ':' :: ' ' :: body from rfl,
    show skipWs (' ' :: body) = skipWs body from rfl, hval, hr3]

theorem isDig_not_special (d : Char) (h : isDig d = true) :
    d ≠ '{' ∧ d ≠ '[' ∧ d ≠ '"' ∧ d ≠ 'n' ∧ d ≠ 't' ∧ d ≠ 'f' ∧ d ≠ '-' := by
  refine ⟨?_, ?_, ?_, ?_, ?_, ?_, ?_⟩ <;> (rintro rfl; exact absurd h (by decide))

set_option maxHeartbeats 2000000 in
theorem parseP_value_str (f : Nat) (W : List Char) :
    parseP (f + 1) PMode.value ('"' :: W) =
      (parseStr W).map (fun p => (PRes.val (Json.str p.1), p.2)) := by
  rw [parseP.eq_def]
  simp

set_option maxHeartbeats 2000000 in
theorem parseP_value_default (f : Nat) (d : Char) (Y : List Char)
    (h1 : d ≠ '{') (h2 : d ≠ '[') (h3 : d ≠ '"') (h4 : d ≠ 'n') (h5 : d ≠ 't')
    (h6 : d ≠ 'f') :
    parseP (f + 1) PMode.value (d :: Y) =
      (parseNum (d :: Y)).map (fun p => (PRes.val p.1, p.2)) := by
  rw [parseP.eq_def]
  split
  · omega
  · split <;> simp_all
  · simp_all
  · simp_all

def draftObj (msg : List Char) (tid : Nat) : Json :=
  Json.obj [("message".data, Json.str msg), ("transaction_id".data, Json.num (tid : Int)),
            ("meta".data, Json.str "draft_created".data)]

theorem parseP_value_natDec (f n : Nat) (c : Char) (cs : List Char)
    (hc1 : isDig c = false) (hc2 : c ≠ '.') (hc3 : c ≠ 'e') (hc4 : c ≠ 'E') :
    parseP (f + 1) PMode.value (natDec n ++ c :: cs) =
      some (PRes.val (Json.num (n : Int)), c :: cs) := by
  by_cases h0 : n = 0
  · subst h0
    rw [show natDec 0 ++ c :: cs = '0' :: (c :: cs) from rfl]
    rw [parseP_value_default f '0' (c :: cs) (by decide) (by decide) (by decide) (by decide)
      (by decide) (by decide)]
    have h := parseNum_natDec 0 c cs hc1 hc2 hc3 hc4
    rw [show natDec 0 ++ c :: cs = '0' :: (c :: cs) from rfl] at h
    rw [h]
    rfl
  · obtain ⟨d, ds, heq, _, hdig⟩ := natDecFuel_head (n + 1) n (by omega) (by omega)
    have hs := isDig_not_special d hdig
    have hshape : natDec n ++ c :: cs = d :: (ds ++ c :: cs) := by
      rw [show natDec n = d :: ds from heq, List.cons_append]
    rw [hshape]
    rw [parseP_value_default f d _ hs.1 hs.2.1 hs.2.2.1 hs.2.2.2.1 hs.2.2.2.2.1 hs.2.2.2.2.2.1]
    have h := parseNum_natDec n c cs hc1 hc2 hc3 hc4
    rw [hshape] at h
    rw [h]
    rfl

theorem parseP_m3 (f : Nat) (rest : List Char) :
    parseP (f + 2) PMode.members
      ('"' :: ("meta".data ++ ('"' :: ':' :: ' ' ::
        ('"' :: ("draft_created".data ++ ('"' :: '}' :: rest)))))) =
      some (PRes.mems [("meta".data, Json.str "draft_created".data)], rest) := rfl

theorem parseP_m2 (f tid : Nat) (rest : List Char) :
    parseP (f + 3) PMode.members
      ('"' :: ("transaction_id".data ++ ('"' :: ':' :: ' ' ::
        (natDec tid ++ (',' :: ' ' ::
        ('"' :: ("meta".data ++ ('"' :: ':' :: ' ' ::
        ('"' :: ("draft_created".data ++ ('"' :: '}' :: rest))))))))))) =
      some (PRes.mems [("transaction_id".data, Json.num (tid : Int)),
        ("meta".data, Json.str "draft_created".data)], rest) := by
  apply parseP_members_cons (f + 2) "transaction_id".data
    (natDec tid ++ (',' :: ' ' ::
      ('"' :: ("meta".data ++ ('"' :: ':' :: ' ' ::
      ('"' :: ("draft_created".data ++ ('"' :: '}' :: rest))))))))
    (' ' :: ('"' :: ("meta".data ++ ('"' :: ':' :: ' ' ::
      ('"' :: ("draft_created".data ++ ('"' :: '}' :: rest)))))))
    rest (Json.num (tid : Int)) [("meta".data, Json.str "draft_created".data)]
    (',' :: ' ' :: ('"' :: ("meta".data ++ ('"' :: ':' :: ' ' ::
      ('"' :: ("draft_created".data ++ ('"' :: '}' :: rest)))))))
    (by decide)
    ?hval ?hr3 ?hnext
  case hval =>
    rw [skipWs_natDec]
    exact parseP_value_natDec (f + 1) tid ',' _ (by decide) (by decide) (by decide) (by decide)
  case hr3 => rfl
  case hnext =>
    rw [show skipWs (' ' :: ('"' :: ("meta".data ++ ('"' :: ':' :: ' ' ::
      ('"' :: ("draft_created".data ++ ('"' :: '}' :: rest))))))) =
      '"' :: ("meta".data ++ ('"' :: ':' :: ' ' ::
      ('"' :: ("draft_created".data ++ ('"' :: '}' :: rest))))) from rfl]
    exact parseP_m3 f rest

theorem parseP_m1 (f tid : Nat) (msg rest : List Char) :
    parseP (f + 4) PMode.members
      ('"' :: ("message".data ++ ('"' :: ':' :: ' ' ::
        ('"' :: (pyEscape msg ++ ('"' :: ',' :: ' ' ::
        ('"' :: ("transaction_id".data ++ ('"' :: ':' :: ' ' ::
        (natDec tid ++ (',' :: ' ' ::
        ('"' :: ("meta".data ++ ('"' :: ':' :: ' ' ::
        ('"' :: ("draft_created".data ++ ('"' :: '}' :: rest))))))))))))))))) =
      some (PRes.mems [("message".data, Json.str msg),
        ("transaction_id".data, Json.num (tid : Int)),
        ("meta".data, Json.str "draft_created".data)], rest) := by
  apply parseP_members_cons (f + 3) "message".data
    ('"' :: (pyEscape msg ++ ('"' :: ',' :: ' ' ::
      ('"' :: ("transaction_id".data ++ ('"' :: ':' :: ' ' ::
      (natDec tid ++ (',' :: ' ' ::
      ('"' :: ("meta".data ++ ('"' :: ':' :: ' ' ::
      ('"' :: ("draft_created".data ++ ('"' :: '}' :: rest))))))))))))))
    (' ' :: ('"' :: ("transaction_id".data ++ ('"' :: ':' :: ' ' ::
      (natDec tid ++ (',' :: ' ' ::
      ('"' :: ("meta".data ++ ('"' :: ':' :: ' ' ::
      ('"' :: ("draft_created".data ++ ('"' :: '}' :: rest))))))))))))
    rest (Json.str msg)
    [("transaction_id".data, Json.num (tid : Int)),
     ("meta".data, Json.str "draft_created".data)]
    (',' :: ' ' :: ('"' :: ("transaction_id".data ++ ('"' :: ':' :: ' ' ::
      (natDec tid ++ (',' :: ' ' ::
      ('"' :: ("meta".data ++ ('"' :: ':' :: ' ' ::
      ('"' :: ("draft_created".data ++ ('"' :: '}' :: rest))))))))))))
    (by decide)
    ?hval ?hr3 ?hnext
  case hval =>
    rw [show skipWs ('"' :: (pyEscape msg ++ ('"' :: ',' :: ' ' ::
      ('"' :: ("transaction_id".data ++ ('"' :: ':' :: ' ' ::
      (natDec tid ++ (',' :: ' ' ::
      ('"' :: ("meta".data ++ ('"' :: ':' :: ' ' ::
      ('"' :: ("draft_created".data ++ ('"' :: '}' :: rest)))))))))))))) =
      '"' :: (pyEscape msg ++ ('"' :: ',' :: ' ' ::
      ('"' :: ("transaction_id".data ++ ('"' :: ':' :: ' ' ::
      (natDec tid ++ (',' :: ' ' ::
      ('"' :: ("meta".data ++ ('"' :: ':' :: ' ' ::
      ('"' :: ("draft_created".data ++ ('"' :: '}' :: rest))))))))))))) from rfl]
    rw [parseP_value_str (f + 2)]
    rw [show pyEscape msg ++ ('"' :: ',' :: ' ' ::
      ('"' :: ("transaction_id".data ++ ('"' :: ':' :: ' ' ::
      (natDec tid ++ (',' :: ' ' ::
      ('"' :: ("meta".data ++ ('"' :: ':' :: ' ' ::
      ('"' :: ("draft_created".data ++ ('"' :: '}' :: rest)))))))))))) =
      pyEscape msg ++ '"' :: (',' :: ' ' ::
      ('"' :: ("transaction_id".data ++ ('"' :: ':' :: ' ' ::
      (natDec tid ++ (',' :: ' ' ::
      ('"' :: ("meta".data ++ ('"' :: ':' :: ' ' ::
      ('"' :: ("draft_created".data ++ ('"' :: '}' :: rest)))))))))))) from rfl]
    rw [parseStr_pyEscape]
    rfl
  case hr3 => rfl
  case hnext =>
    rw [show skipWs (' ' :: ('"' :: ("transaction_id".data ++ ('"' :: ':' :: ' ' ::
      (natDec tid ++ (',' :: ' ' ::
      ('"' :: ("meta".data ++ ('"' :: ':' :: ' ' ::
      ('"' :: ("draft_created".data ++ ('"' :: '}' :: rest)))))))))))) =
      '"' :: ("transaction_id".data ++ ('"' :: ':' :: ' ' ::
      (natDec tid ++ (',' :: ' ' ::
      ('"' :: ("meta".data ++ ('"' :: ':' :: ' ' ::
      ('"' :: ("draft_created".data ++ ('"' :: '}' :: rest)))))))))) from rfl]
    exact parseP_m2 f tid rest

set_option maxHeartbeats 2000000 in
theorem parseP_draftTop (f tid : Nat) (msg rest : List Char) :
    parseP (f + 5) PMode.value ('{' :: ('"' :: ("message".data ++ ('"' :: ':' :: ' ' ::
        ('"' :: (pyEscape msg ++ ('"' :: ',' :: ' ' ::
        ('"' :: ("transaction_id".data ++ ('"' :: ':' :: ' ' ::
        (natDec tid ++ (',' :: ' ' ::
        ('"' :: ("meta".data ++ ('"' :: ':' :: ' ' ::
        ('"' :: ("draft_created".data ++ ('"' :: '}' :: rest)))))))))))))))))) =
      some (PRes.val (draftObj msg tid), rest) := by
  rw [parseP.eq_def]
  split
  · omega
  · rename_i h1 h2 h3
    have hf : h1 = f + 4 := by omega
    subst hf
    split
    · rename_i rest' heq
      injection heq with hc hI
      subst hI
      rw [show skipWs ('"' :: ("message".data ++ ('"' :: ':' :: ' ' ::
        ('"' :: (pyEscape msg ++ ('"' :: ',' :: ' ' ::
        ('"' :: ("transaction_id".data ++ ('"' :: ':' :: ' ' ::
        (natDec tid ++ (',' :: ' ' ::
        ('"' :: ("meta".data ++ ('"' :: ':' :: ' ' ::
        ('"' :: ("draft_created".data ++ ('"' :: '}' :: rest))))))))))))))))) = ('"' :: ("message".data ++ ('"' :: ':' :: ' ' ::
        ('"' :: (pyEscape msg ++ ('"' :: ',' :: ' ' ::
        ('"' :: ("transaction_id".data ++ ('"' :: ':' :: ' ' ::
        (natDec tid ++ (',' :: ' ' ::
        ('"' :: ("meta".data ++ ('"' :: ':' :: ' ' ::
        ('"' :: ("draft_created".data ++ ('"' :: '}' :: rest))))))))))))))))) from rfl]
      split
      · rename_i r2 heq2
        injection heq2 with hc2
        exact absurd hc2 (by decide)
      · rw [parseP_m1 f tid msg rest]
        rfl
    · rename_i rest' heq
      injection heq with hc
      exact absurd hc (by decide)
    · rename_i rest' heq
      injection heq with hc
      exact absurd hc (by decide)
    · rename_i rest' heq
      injection heq with hc
      exact absurd hc (by decide)
    · rename_i rest' heq
      injection heq with hc
      exact absurd hc (by decide)
    · rename_i rest' heq
      injection heq with hc
      exact absurd hc (by decide)
    · rename_i hq1 hq2 hq3 hq4 hq5 hq6
      exfalso
      exact hq1 ('"' :: ("message".data ++ ('"' :: ':' :: ' ' ::
        ('"' :: (pyEscape msg ++ ('"' :: ',' :: ' ' ::
        ('"' :: ("transaction_id".data ++ ('"' :: ':' :: ' ' ::
        (natDec tid ++ (',' :: ' ' ::
        ('"' :: ("meta".data ++ ('"' :: ':' :: ' ' ::
        ('"' :: ("draft_created".data ++ ('"' :: '}' :: rest))))))))))))))))) rfl
  · simp_all
  · simp_all


set_option maxHeartbeats 2000000 in
theorem draftJson_normal (m : String) (tid : Nat) :
    draftJson m tid = '{' :: ('"' :: ("message".data ++ ('"' :: ':' :: ' ' ::
        ('"' :: (pyEscape (draftMessage m).data ++ ('"' :: ',' :: ' ' ::
        ('"' :: ("transaction_id".data ++ ('"' :: ':' :: ' ' ::
        (natDec tid ++ (',' :: ' ' ::
        ('"' :: ("meta".data ++ ('"' :: ':' :: ' ' ::
        ('"' :: ("draft_created".data ++ ('"' :: '}' :: []))))))))))))))))) := by
  have hA : djA = '{' :: '"' :: ("message".data ++ ['"', ':', ' ', '"']) := rfl
  have hB : djB = ',' :: ' ' :: '"' :: ("transaction_id".data ++ ['"', ':', ' ']) := rfl
  have hC : djC = ',' :: ' ' :: '"' :: ("meta".data ++
      ('"' :: ':' :: ' ' :: '"' :: ("draft_created".data ++ ['"', '}']))) := rfl
  rw [draftJson, hA, hB, hC]
  simp [List.append_assoc]

set_option maxHeartbeats 2000000 in
theorem jsonParse_draftJson (m : String) (tid : Nat) :
    jsonParse (draftJson m tid) = some (draftObj (draftMessage m).data tid) := by
  have hskip : skipWs (draftJson m tid) = draftJson m tid := by
    rw [draftJson_normal]
    rfl
  obtain ⟨f, hf⟩ : ∃ f, (draftJson m tid).length + 1 = f + 5 := by
    refine ⟨(draftJson m tid).length - 4, ?_⟩
    have h13 : 13 ≤ (draftJson m tid).length := by
      have e1 : djA.length = 13 := rfl
      have e2 : djC.length = 26 := rfl
      rw [draftJson]
      simp [List.length_append, e1, e2]
    omega
  unfold jsonParse
  rw [hskip, hf, draftJson_normal]
  rw [parseP_draftTop f tid (draftMessage m).data []]
  rfl

/-! ### Positional lemmas for the regex embedding -/

/-- The tail of the dumped draft JSON: the marker followed by the closing brace. -/
def dMark : List Char := "\"meta\": \"draft_created\"\x7d".data

theorem markerLen_dMark (suf : List Char) : markerLen (dMark ++ suf) = some 23 := rfl

theorem charAt_nil (i : Nat) : charAt [] i = ' ' := by
  cases i <;> rfl

theorem charAt_cons_succ (c : Char) (t : List Char) (i : Nat) :
    charAt (c :: t) (i + 1) = charAt t i := rfl

theorem charAt_add (l : List Char) (a b : Nat) : charAt l (a + b) = charAt (l.drop a) b := by
  induction a generalizing l with
  | zero => simp
  | succ a ih =>
    cases l with
    | nil => rw [List.drop_nil, charAt_nil, charAt_nil]
    | cons c u =>
      have h : a + 1 + b = (a + b) + 1 := by omega
      rw [h, charAt_cons_succ, ih, List.drop_succ_cons]

theorem charAt_mem (l : List Char) (i : Nat) (h : i < l.length) : charAt l i ∈ l := by
  induction l generalizing i with
  | nil => simp at h
  | cons c t ih =>
    cases i with
    | zero => exact List.mem_cons_self c t
    | succ j =>
      rw [charAt_cons_succ]
      exact List.mem_cons_of_mem c (ih j (by simpa using h))

theorem charAt_append_left (l r : List Char) (i : Nat) (h : i < l.length) :
    charAt (l ++ r) i = charAt l i := by
  induction l generalizing i with
  | nil => simp at h
  | cons c u ih =>
    cases i with
    | zero => rfl
    | succ j =>
      rw [List.cons_append, charAt_cons_succ, charAt_cons_succ]
      exact ih j (by simpa using h)

theorem charAt_head_drop (t : List Char) (i : Nat) (h : i < t.length) :
    t.drop i = charAt t i :: t.drop (i + 1) := by
  induction t generalizing i with
  | nil => simp at h
  | cons c u ih =>
    cases i with
    | zero => rfl
    | succ j =>
      rw [charAt_cons_succ, List.drop_succ_cons, List.drop_succ_cons]
      exact ih j (by simpa using h)

theorem filter_range_getLast (n k : Nat) (p : Nat → Bool) (hk : k < n) (hpk : p k = true)
    (hafter : ∀ j, k < j → j < n → p j = false) :
    ((List.range n).filter p).getLast? = some k := by
  induction n with
  | zero => omega
  | succ m ih =>
    rw [List.range_succ, List.filter_append]
    by_cases hkm : k = m
    · subst hkm
      have h2 : List.filter p [k] = [k] := by simp [List.filter, hpk]
      rw [h2, List.getLast?_concat]
    · have hm : p m = false := hafter m (by omega) (by omega)
      have h2 : List.filter p [m] = [] := by simp [List.filter, hm]
      rw [h2, List.append_nil]
      exact ih (by omega) (fun j h1 h2 => hafter j h1 (by omega))

theorem filter_range_head (n k : Nat) (p : Nat → Bool) (hk : k < n) (hpk : p k = true)
    (hbefore : ∀ j, j < k → p j = false) :
    ((List.range n).filter p).head? = some k := by
  induction n with
  | zero => omega
  | succ m ih =>
    rw [List.range_succ, List.filter_append]
    by_cases hkm : k = m
    · subst hkm
      have h1 : List.filter p (List.range k) = [] := by
        rw [List.filter_eq_nil_iff]
        intro a ha
        simp [hbefore a (List.mem_range.mp ha)]
      have h2 : List.filter p [k] = [k] := by simp [List.filter, hpk]
      rw [h1, h2]
      rfl
    · have ihm := ih (by omega)
      cases hh : List.filter p (List.range m) with
      | nil => rw [hh] at ihm; cases ihm
      | cons a l =>
        rw [hh] at ihm
        rw [List.cons_append]
        simpa using ihm

set_option maxHeartbeats 1000000 in
theorem reFindWidget_concat (pre P suf : List Char)
    (hpre : ∀ c ∈ pre, c ≠ '{') (hsuf : ∀ c ∈ suf, c ≠ '}')
    (t : List Char) (hPt : P = '{' :: t) :
    reFindWidget (pre ++ (P ++ dMark) ++ suf) = some (P ++ dMark) := by
  have h24 : dMark.length = 24 := rfl
  have hq : 0 < P.length := by rw [hPt]; simp
  have hlen : (pre ++ (P ++ dMark) ++ suf).length
      = pre.length + P.length + 24 + suf.length := by
    simp [List.length_append, h24]
    omega
  have hdropn : (pre ++ (P ++ dMark) ++ suf).drop pre.length = (P ++ dMark) ++ suf := by
    rw [List.append_assoc]
    exact List.drop_left pre _
  have hgroup : pre ++ (P ++ dMark) ++ suf = (pre ++ P) ++ (dMark ++ suf) := by
    simp [List.append_assoc]
  have hdropnq : (pre ++ (P ++ dMark) ++ suf).drop (pre.length + P.length)
      = dMark ++ suf := by
    rw [hgroup]
    have h1 : (pre ++ P).length = pre.length + P.length := by simp
    rw [← h1]
    exact List.drop_left _ _
  have hdropk : (pre ++ (P ++ dMark) ++ suf).drop (pre.length + P.length + 24) = suf := by
    have hgroup2 : pre ++ (P ++ dMark) ++ suf = ((pre ++ P) ++ dMark) ++ suf := by
      simp [List.append_assoc]
    rw [hgroup2]
    have h1 : ((pre ++ P) ++ dMark).length = pre.length + P.length + 24 := by
      simp [h24]
      omega
    rw [← h1]
    exact List.drop_left _ _
  have hmark : markerLen ((pre ++ (P ++ dMark) ++ suf).drop (pre.length + P.length))
      = some 23 := by rw [hdropnq]; exact markerLen_dMark suf
  have hmem : pre.length + P.length + 23
      ∈ markerEnds (pre ++ (P ++ dMark) ++ suf) (pre.length + 1) := by
    unfold markerEnds
    rw [List.mem_filterMap]
    refine ⟨pre.length + P.length, ?_, ?_⟩
    · rw [List.mem_range]
      omega
    · rw [if_pos (by omega), hmark]
      rfl
  have hcharK : charAt (pre ++ (P ++ dMark) ++ suf) (pre.length + P.length + 23) = '}' := by
    rw [charAt_add, hdropnq]
    rfl
  have hME : matchEnd (pre ++ (P ++ dMark) ++ suf) pre.length
      = some (pre.length + P.length + 23) := by
    unfold matchEnd
    apply filter_range_getLast
    · omega
    · simp only [hcharK, beq_self_eq_true, Bool.true_and, List.any_eq_true,
        decide_eq_true_eq]
      exact ⟨pre.length + P.length + 23, hmem, le_refl _⟩
    · intro j h1 h2
      obtain ⟨r, rfl⟩ : ∃ r, j = pre.length + P.length + 24 + r :=
        ⟨j - (pre.length + P.length + 24), by omega⟩
      have hm : charAt (pre ++ (P ++ dMark) ++ suf) (pre.length + P.length + 24 + r) ∈ suf := by
        rw [charAt_add, hdropk]
        exact charAt_mem suf r (by omega)
      have hne : charAt (pre ++ (P ++ dMark) ++ suf) (pre.length + P.length + 24 + r) ≠ '}' :=
        hsuf _ hm
      have hb : (charAt (pre ++ (P ++ dMark) ++ suf) (pre.length + P.length + 24 + r) == '}')
          = false := beq_eq_false_iff_ne.mpr hne
      simp only [hb, Bool.false_and]
  have hcharN : charAt (pre ++ (P ++ dMark) ++ suf) pre.length = '{' := by
    have h0 : pre.length = pre.length + 0 := rfl
    rw [h0, charAt_add, hdropn, hPt]
    rfl
  have hMS : matchStart (pre ++ (P ++ dMark) ++ suf) = some pre.length := by
    unfold matchStart
    apply filter_range_head
    · omega
    · simp only [hcharN, beq_self_eq_true, Bool.true_and, hME, Option.isSome_some]
    · intro j hj
      have hm : charAt (pre ++ (P ++ dMark) ++ suf) j ∈ pre := by
        rw [List.append_assoc, charAt_append_left pre _ j hj]
        exact charAt_mem pre j hj
      have hne : charAt (pre ++ (P ++ dMark) ++ suf) j ≠ '{' := hpre _ hm
      have hb : (charAt (pre ++ (P ++ dMark) ++ suf) j == '{') = false :=
        beq_eq_false_iff_ne.mpr hne
      simp only [hb, Bool.false_and]
  unfold reFindWidget
  simp only [hMS, hME]
  have harith : pre.length + P.length + 23 - pre.length + 1 = (P ++ dMark).length := by
    simp [h24]
    omega
  rw [hdropn, harith, List.take_left]

theorem draftJson_split (m : String) (tid : Nat) :
    draftJson m tid
      = (djA ++ pyEscape (draftMessage m).data ++ ('"' :: djB) ++ natDec tid ++ [',', ' '])
        ++ dMark := by
  have hC : djC = ',' :: ' ' :: dMark := rfl
  rw [draftJson, hC]
  simp [List.append_assoc]

theorem extract_embedded (m : String) (tid : Nat) (pre suf : List Char)
    (hpre : ∀ c ∈ pre, c ≠ '{') (hsuf : ∀ c ∈ suf, c ≠ '}') :
    extract_json_widget ⟨pre ++ draftJson m tid ++ suf⟩
      = some (draftObj (draftMessage m).data tid) := by
  have hdata : (String.mk (pre ++ draftJson m tid ++ suf)).data
      = pre ++ draftJson m tid ++ suf := rfl
  unfold extract_json_widget
  rw [hdata, draftJson_split m tid]
  rw [reFindWidget_concat pre
    (djA ++ pyEscape (draftMessage m).data ++ '"' :: djB ++ natDec tid ++ [',', ' '])
    suf hpre hsuf _ rfl]
  rw [← draftJson_split m tid]
  exact jsonParse_draftJson m tid

theorem jGet_draftObj_message (msg : List Char) (tid : Nat) :
    jGet (draftObj msg tid) (['m', 'e', 's', 's', 'a', 'g', 'e']) = some (Json.str msg) := rfl

theorem jGet_draftObj_tid (msg : List Char) (tid : Nat) :
    jGet (draftObj msg tid) (['t', 'r', 'a', 'n', 's', 'a', 'c', 't', 'i', 'o', 'n', '_', 'i', 'd'])
      = some (Json.num (tid : Int)) := rfl

/-- On a successful draft, `create_transaction_draft` returns exactly the
dumped JSON of the draft payload for the chosen car and the fresh id. -/
theorem create_transaction_draft_output (store : Store) (uid : Nat) (q date ty : String)
    (car : EVCar)
    (hu : uid ∈ store.users)
    (hcar : findAvailableCar (getOrCreateProfile store uid).2 q = some car) :
    ((create_transaction_draft store uid q date ty).1).data
      = draftJson car.model_name (getOrCreateProfile store uid).2.nextTxnId := by
  unfold create_transaction_draft
  rw [if_pos hu]
  simp only [hcar]

/-- C5: for a successful draft, surrounding the tool's JSON output with any
leading prose free of `\x7b` and trailing prose free of `\x7d`, the widget
interpreter displays exactly the JSON's `message` field and surfaces exactly
its `transaction_id` field. -/
theorem C5_draft_roundtrip_with_prose (store : Store) (uid : Nat) (q date ty : String)
    (car : EVCar) (pre suf : List Char)
    (hu : uid ∈ store.users)
    (hcar : findAvailableCar (getOrCreateProfile store uid).2 q = some car)
    (hpre : ∀ c ∈ pre, c ≠ '{')
    (hsuf : ∀ c ∈ suf, c ≠ '}')
    (htid : (getOrCreateProfile store uid).2.nextTxnId ≠ 0) :
    interpretResponse ⟨pre ++ ((create_transaction_draft store uid q date ty).1).data ++ suf⟩
      = (Json.str (draftMessage car.model_name).data,
         some (Json.num ((getOrCreateProfile store uid).2.nextTxnId : Int))) := by
  rw [create_transaction_draft_output store uid q date ty car hu hcar]
  unfold interpretResponse
  rw [extract_embedded car.model_name (getOrCreateProfile store uid).2.nextTxnId pre suf hpre hsuf]
  have htr : jTruthy (Json.num ((getOrCreateProfile store uid).2.nextTxnId : Int)) = true := by
    have h0 : ((getOrCreateProfile store uid).2.nextTxnId : Int) ≠ 0 := by
      exact_mod_cast htid
    simp [jTruthy, h0]
  simp only [jGet_draftObj_message, jGet_draftObj_tid, Option.getD_some, htr]
  simp

/-- C5 witness: a concrete store, user and query, with prose around the draft
JSON, interpreted back to its message and transaction id. -/
theorem C5_draft_roundtrip_with_prose_witness :
    interpretResponse ⟨"Sure: ".data
        ++ ((create_transaction_draft sampleConfirmed 7 "Model" "2025-01-01" "RENT").1).data
        ++ " ok".data⟩
      = (Json.str (draftMessage "Model 3").data, some (Json.num 2)) :=
  C5_draft_roundtrip_with_prose sampleConfirmed 7 "Model" "2025-01-01" "RENT"
    { id := 1, model_name := "Model 3", range_km := 350,
      price_per_day := "49.00", status := "AVAILABLE" }
    ("Sure: ".data) (" ok".data)
    (by decide) rfl (by decide) (by decide) (by decide)

set_option maxHeartbeats 4000000 in
/-- C5 counterexample: with a leading prose brace the greedy pattern matches
from that brace, `json.loads` fails on the widened group, and the interpreter
falls back to the raw text instead of the JSON's `message` field. -/
theorem C5_prose_counterexample :
    extract_json_widget ⟨"\x7b ".data ++ draftJson "Zoe" 1⟩ = none ∧
    interpretResponse ⟨"\x7b ".data ++ draftJson "Zoe" 1⟩
      = (Json.str ("\x7b ".data ++ draftJson "Zoe" 1), none) ∧
    jGet (draftObj (draftMessage "Zoe").data 1) (['m', 'e', 's', 's', 'a', 'g', 'e'])
      = some (Json.str (draftMessage "Zoe").data) ∧
    Json.str ("\x7b ".data ++ draftJson "Zoe" 1) ≠ Json.str (draftMessage "Zoe").data := by
  refine ⟨rfl, rfl, rfl, ?_⟩
  intro h
  injection h with h1
  exact absurd h1 (by decide)

theorem mem_of_getLast?_nat (l : List Nat) (a : Nat) (h : l.getLast? = some a) : a ∈ l := by
  induction l with
  | nil => cases h
  | cons b u ih =>
    cases u with
    | nil =>
      rw [List.getLast?_singleton] at h
      injection h with h1
      rw [h1]
      exact List.mem_cons_self a []
    | cons c v =>
      rw [List.getLast?_cons_cons] at h
      exact List.mem_cons_of_mem b (ih h)

theorem matchEnd_spec (t : List Char) (i k : Nat) (h : matchEnd t i = some k) :
    k < t.length ∧ charAt t k = '}' ∧
      ∃ e ∈ markerEnds t (i + 1), e ≤ k := by
  unfold matchEnd at h
  have hm := mem_of_getLast?_nat _ _ h
  rw [List.mem_filter] at hm
  obtain ⟨hr, hp⟩ := hm
  rw [List.mem_range] at hr
  simp only [Bool.and_eq_true, beq_iff_eq, List.any_eq_true, decide_eq_true_eq] at hp
  exact ⟨hr, hp.1, hp.2⟩

theorem matchStart_spec (t : List Char) (i : Nat) (h : matchStart t = some i) :
    i < t.length ∧ charAt t i = '{' ∧ (matchEnd t i).isSome = true := by
  unfold matchStart at h
  have hm : i ∈ (List.range t.length).filter
      (fun j => charAt t j == '{' && (matchEnd t j).isSome) := by
    cases hh : (List.range t.length).filter
        (fun j => charAt t j == '{' && (matchEnd t j).isSome) with
    | nil => rw [hh] at h; cases h
    | cons a l =>
      rw [hh] at h
      injection h with h1
      rw [h1]
      exact List.mem_cons_self i l
  rw [List.mem_filter] at hm
  obtain ⟨hr, hp⟩ := hm
  rw [List.mem_range] at hr
  simp only [Bool.and_eq_true, beq_iff_eq] at hp
  exact ⟨hr, hp.1, hp.2⟩

theorem markerEnds_mem_spec (t : List Char) (lo e : Nat) (h : e ∈ markerEnds t lo) :
    ∃ j l, lo ≤ j ∧ markerLen (t.drop j) = some l ∧ e = j + l := by
  unfold markerEnds at h
  rw [List.mem_filterMap] at h
  obtain ⟨j, hjr, hf⟩ := h
  by_cases hlo : lo ≤ j
  · rw [if_pos hlo] at hf
    cases hml : markerLen (t.drop j) with
    | none => rw [hml] at hf; cases hf
    | some l =>
      rw [hml] at hf
      injection hf with h1
      exact ⟨j, l, hlo, hml, h1.symm⟩
  · rw [if_neg hlo] at hf
    cases hf

theorem reFindWidget_some (t s : List Char) (h : reFindWidget t = some s) :
    ∃ i k, matchStart t = some i ∧ matchEnd t i = some k ∧
      s = (t.drop i).take (k - i + 1) := by
  unfold reFindWidget at h
  cases hms : matchStart t with
  | none => rw [hms] at h; cases h
  | some i =>
    simp only [hms] at h
    cases hme : matchEnd t i with
    | none =>
      simp only [hme] at h
      cases h
    | some k =>
      simp only [hme] at h
      injection h with h1
      exact ⟨i, k, rfl, hme, h1.symm⟩

theorem parseP_value_brace_obj (f : Nat) (r rest : List Char) (v : Json)
    (h : parseP (f + 1) PMode.value ('{' :: r) = some (PRes.val v, rest)) :
    ∃ kvs, v = Json.obj kvs := by
  rw [parseP.eq_def] at h
  simp only at h
  split at h
  · injection h with h1
    injection h1 with h2 h3
    injection h2 with h4
    exact ⟨[], h4.symm⟩
  · split at h
    · injection h with h1
      injection h1 with h2 h3
      injection h2 with h4
      exact ⟨_, h4.symm⟩
    · cases h

theorem jsonParse_brace (r : List Char) (v : Json)
    (h : jsonParse ('{' :: r) = some v) : ∃ kvs, v = Json.obj kvs := by
  unfold jsonParse at h
  rw [skipWs_not_ws '{' r rfl] at h
  cases hp : parseP (('{' :: r).length + 1) PMode.value ('{' :: r) with
  | none =>
    rw [hp] at h
    cases h
  | some pr =>
    obtain ⟨res, rest⟩ := pr
    cases res with
    | val v2 =>
      obtain ⟨kvs, rfl⟩ := parseP_value_brace_obj ('{' :: r).length r rest v2 hp
      simp only [hp] at h
      split at h
      · injection h with h1
        exact ⟨kvs, h1.symm⟩
      · cases h
    | mems l =>
      simp only [hp] at h
      cases h
    | elts l =>
      simp only [hp] at h
      cases h

/-- C10: the widget extractor is total — every failure path (no regex match, or
a JSON parse error on the matched group) collapses to `none`, in which case the
interpreter passes the text through unchanged and surfaces no draft; and when
it does return a value, that value is a parsed JSON object whose matched span
contains the `draft_created` marker. -/
theorem C10_extract_total (text : String) :
    (extract_json_widget text = none ∧
      interpretResponse text = (Json.str text.data, none)) ∨
    (∃ kvs i k j l,
      extract_json_widget text = some (Json.obj kvs) ∧
      matchStart text.data = some i ∧ matchEnd text.data i = some k ∧
      i < j ∧ markerLen (text.data.drop j) = some l ∧ j + l ≤ k + 1) := by
  cases hx : extract_json_widget text with
  | none =>
    left
    refine ⟨rfl, ?_⟩
    unfold interpretResponse
    simp only [hx]
  | some v =>
    right
    have hx2 := hx
    unfold extract_json_widget at hx2
    cases hrf : reFindWidget text.data with
    | none =>
      rw [hrf] at hx2
      cases hx2
    | some s =>
      simp only [hrf] at hx2
      obtain ⟨i, k, hms, hme, hs⟩ := reFindWidget_some text.data s hrf
      obtain ⟨hilen, hchar, hsome⟩ := matchStart_spec text.data i hms
      obtain ⟨hklen, hcharK, e, hemem, hek⟩ := matchEnd_spec text.data i k hme
      obtain ⟨j, l, hloj, hml, hejl⟩ := markerEnds_mem_spec text.data (i + 1) e hemem
      rw [charAt_head_drop text.data i hilen, hchar, List.take_succ_cons] at hs
      rw [hs] at hx2
      obtain ⟨kvs, rfl⟩ := jsonParse_brace _ v hx2
      exact ⟨kvs, i, k, j, l, rfl, hms, hme, by omega, hml, by omega⟩
